import Mathlib

/-
Verification of the result-reconciliation engine of the measurement layer
(qcodes/dataset/measurements.py).  The Python code is shallowly embedded:
Python scalars / nested sequences / numpy arrays become the `PyVal` type,
numpy arrays are a shape plus the row-major flat data, dictionaries become
association lists with insertion-order update semantics, and every fallible
operation returns `Except MeasError`.
-/

namespace QMeas

/-- Scalar element of a numpy array: a number or a string.  The numeric
values handled by the code are only moved around, never computed with, so
they are modelled as integers. -/
inductive Scal where
  | num (n : Int)
  | str (s : String)
deriving DecidableEq

/-- A numpy ndarray: a shape together with the row-major flattened data. -/
structure NDArr where
  shape : List Nat
  data : List Scal
deriving DecidableEq

/-- A Python value as passed around by the measurement code: a numeric
scalar (int/float), a string, a tuple/list (possibly nested), or a numpy
array. -/
inductive PyVal where
  | num (n : Int)
  | str (s : String)
  | seq (vs : List PyVal)
  | nd (a : NDArr)

def Scal.toPy : Scal → PyVal
  | .num n => .num n
  | .str s => .str s

def listProd : List Nat → Nat
  | [] => 1
  | d :: ds => d * listProd ds

/-- `np.shape` of a value (regular, i.e. non-ragged, nested sequences). -/
def pyShape : PyVal → List Nat
  | .num _ => []
  | .str _ => []
  | .seq [] => [0]
  | .seq (v :: vs) => (vs.length + 1) :: pyShape v
  | .nd a => a.shape

mutual

/-- Row-major flattening of a value, as `np.array(v).ravel()` would list
the elements. -/
def pyFlatten : PyVal → List Scal
  | .num n => [.num n]
  | .str s => [.str s]
  | .seq vs => pyFlattenList vs
  | .nd a => a.data

def pyFlattenList : List PyVal → List Scal
  | [] => []
  | v :: vs => pyFlatten v ++ pyFlattenList vs

end

/-- `np.array(v)`: the array with the value's shape and flattened data. -/
def npArray (v : PyVal) : NDArr := ⟨pyShape v, pyFlatten v⟩

/-- `a.ravel()`: flatten to one dimension. -/
def NDArr.ravel (a : NDArr) : NDArr := ⟨[a.data.length], a.data⟩

/-- `np.repeat(v, n)`: flatten `v` and repeat each element `n` times. -/
def npRepeat (v : PyVal) (n : Nat) : NDArr :=
  let a := npArray v
  ⟨[a.data.length * n], a.data.flatMap (fun s => List.replicate n s)⟩

/-- The `while sps.ndim > 1: sps = sps[0]` loop on a shape and its
row-major data: take the slice at index 0 along each outer dimension. -/
def reduceShape : List Nat → List Scal → NDArr
  | [], d => ⟨[], d⟩
  | [n], d => ⟨[n], d⟩
  | _ :: d1 :: rest, d => reduceShape (d1 :: rest) (d.take (listProd (d1 :: rest)))

/-- Reduce an array to its innermost 1-D slice by repeatedly taking the
slice at index 0 along the outermost dimension. -/
def reduceTo1D (a : NDArr) : NDArr := reduceShape a.shape a.data

/-- All multi-indices of a shape, in row-major (lexicographic) order. -/
def allIndices : List Nat → List (List Nat)
  | [] => [[]]
  | d :: ds => (List.range d).flatMap (fun i => (allIndices ds).map (fun idx => i :: idx))

/-- `np.meshgrid(*axes, indexing='ij')` for 1-D axes: the k-th output grid
has the outer-product shape and holds `axes[k]` broadcast along its own
axis. -/
def meshgrid (axes : List NDArr) : List NDArr :=
  let dims := axes.map (fun a => a.data.length)
  (List.range axes.length).map (fun k =>
    ⟨dims, (allIndices dims).map (fun idx =>
      (((axes.get? k).getD ⟨[], []⟩).data.getD (idx.getD k 0) (.num 0)))⟩)

/-- Modelled from the spec: a Variable ("parameter spec", `ParamSpecBase`
from qcodes.dataset.param_spec, which is not part of src).  Identity is the
unique name; equality is structural over name, storage class, label and
unit (a missing label/unit is modelled as the empty string). -/
structure ParamSpecBase where
  name : String
  paramtype : String
  label : String
  unit : String
deriving DecidableEq

/-- Modelled from the spec: the interdependencies object
(`InterDependencies_` from qcodes.dataset.dependencies, not part of src).
`dependencies` maps each dependent to its ordered setpoints, `inferences`
maps each derived variable to its basis variables, `standalones` are the
variables with no edges. -/
structure InterDeps where
  dependencies : List (ParamSpecBase × List ParamSpecBase)
  inferences : List (ParamSpecBase × List ParamSpecBase)
  standalones : List ParamSpecBase
deriving DecidableEq

/-- All edges of an edge list, flattened: each key followed by its value
tuple. -/
def specsOfEdges (l : List (ParamSpecBase × List ParamSpecBase)) : List ParamSpecBase :=
  l.flatMap (fun e => e.1 :: e.2)

/-- Every variable known to the graph (the `_id_to_paramspec` view). -/
def InterDeps.allSpecs (m : InterDeps) : List ParamSpecBase :=
  specsOfEdges m.dependencies ++ specsOfEdges m.inferences ++ m.standalones

/-- Name lookup in a list of variables. -/
def findSpec (l : List ParamSpecBase) (n : String) : Option ParamSpecBase :=
  l.find? (fun p => p.name == n)

/-- `interdeps[name]` / `interdeps._id_to_paramspec[name]`. -/
def InterDeps.findByName (m : InterDeps) (n : String) : Option ParamSpecBase :=
  findSpec m.allSpecs n

/-- The errors the embedded code can raise.  Messages are structured: an
error carries the data the source interpolates into its message. -/
inductive MeasError where
  | unknownParameter (name : String)
  | missingSetpoints (name : String)
  | noSetpointsRegistered (name : String)
  | missingParams
  | dependencyViolation (name : String)
  | inferenceViolation (name : String)
  | shapeMismatch (pname : String) (pshape : List Nat) (spname : String) (spshape : List Nat)
  | typeError (pname : String) (expected : String) (got : PyVal)
  | keyError (name : String)
  | indexError
  | nameError
  | floatError
  | alreadyRegistered (name : String)
  | unknownSetpoint (name : String)
  | unknownBasis (name : String)
  | schemaError

/-- The `results_dict`: a Python dict from variable to raw payload,
modelled as an association list with insertion order. -/
abbrev ResultsDict := List (ParamSpecBase × PyVal)

/-- `d[k] = v` on a Python dict: replace in place if the key is present,
else append. -/
def dictUpdate (d : ResultsDict) (k : ParamSpecBase) (v : PyVal) : ResultsDict :=
  if d.any (fun e => e.1 == k) then
    d.map (fun e => if e.1 == k then (k, v) else e)
  else d ++ [(k, v)]

/-- `d1.update(d2)` on Python dicts. -/
def dictMerge (d1 d2 : ResultsDict) : ResultsDict :=
  d2.foldl (fun acc e => dictUpdate acc e.1 e.2) d1

/-- `d[k]` with a `KeyError` on a missing key. -/
def getVal (rd : ResultsDict) (p : ParamSpecBase) : Except MeasError PyVal :=
  match rd.find? (fun e => e.1 == p) with
  | some e => .ok e.2
  | none => .error (.keyError p.name)

/-- `k in d`. -/
def hasKey (rd : ResultsDict) (p : ParamSpecBase) : Bool :=
  rd.any (fun e => e.1 == p)

/-- One row record handed to the storage backend: variable name to value. -/
abbrev Record := List (String × PyVal)

/-- Lookup in a record by variable name. -/
def recFind (r : Record) (n : String) : Option PyVal :=
  (r.find? (fun e => e.1 == n)).map (·.2)

/-- An ArrayParameter as seen by the unpacker: its full name, its optional
setpoint coordinate sequences (one per array dimension), and its optional
explicit setpoint names. -/
structure ArrayParamInfo where
  full_name : String
  setpoints : Option (List PyVal)
  setpoint_full_names : Option (List String)

/-- A MultiParameter as seen by the unpacker: bundle name, per-component
names / full names / declared shapes, optional setpoint sequences per
component and optional setpoint names per component. -/
structure MultiParamInfo where
  full_name : String
  names : List String
  full_names : List String
  shapes : List (List Nat)
  setpoints : Option (List (List PyVal))
  setpoint_full_names : List (Option (List String))

/-- One `(parameter, value)` pair given to `add_result`. -/
inductive PartialResult where
  | plain (name : String) (value : PyVal)
  | arrayP (p : ArrayParamInfo) (value : PyVal)
  | multiP (p : MultiParamInfo) (data : List PyVal)

/-- An `Option` forced like a Python index access: `IndexError` on `none`. -/
def expectIdx {α : Type} : Option α → Except MeasError α
  | some a => .ok a
  | none => .error .indexError

/-- The setpoint name for axis `i`: explicit name if the parameter exposes
one, else the synthesized `"{fallback}_{i}"`. -/
def spAxisName (sp_names : Option (List String)) (fallback : String) (i : Nat) :
    Except MeasError String :=
  match sp_names with
  | some ns => expectIdx (ns.get? i)
  | none => .ok (fallback ++ "_" ++ toString i)

/-- The loop of `_unpack_setpoints_from_parameter`: resolve each axis name
to its registered variable and reduce the supplied coordinate array to its
innermost 1-D slice. -/
def collectSetpointAxes (m : InterDeps) (paramName : String)
    (sp_names : Option (List String)) (fallback : String) :
    Nat → List PyVal → Except MeasError (List (ParamSpecBase × NDArr))
  | _, [] => .ok []
  | i, sps :: rest => do
    let n ← spAxisName sp_names fallback i
    match m.findByName n with
    | none => .error (.noSetpointsRegistered paramName)
    | some sp => do
      let tail ← collectSetpointAxes m paramName sp_names fallback (i + 1) rest
      .ok ((sp, reduceTo1D (npArray sps)) :: tail)

/-- `DataSaver._unpack_setpoints_from_parameter`: resolve the setpoint
variables, reduce every coordinate array to 1-D, mesh them into the
outer-product grids and map each grid to its variable. -/
def unpack_setpoints_from_parameter (m : InterDeps) (paramName : String)
    (setpoints : List PyVal) (sp_names : Option (List String))
    (fallback_sp_name : String) : Except MeasError ResultsDict := do
  let pairs ← collectSetpointAxes m paramName sp_names fallback_sp_name 0 setpoints
  let grids := meshgrid (pairs.map (·.2))
  .ok (((pairs.map (·.1)).zip (grids.map (fun g => PyVal.nd g))).foldl
        (fun acc e => dictUpdate acc e.1 e.2) [])

/-- `DataSaver._unpack_partial_result` for a plain parameter. -/
def unpackPartialResult (m : InterDeps) (name : String) (v : PyVal) :
    Except MeasError ResultsDict :=
  match m.findByName name with
  | some p => .ok [(p, v)]
  | none => .error (.unknownParameter name)

/-- `DataSaver._unpack_arrayparameter`: reject a parameter without
setpoints, look up the main variable, then merge in the unpacked setpoint
grids. -/
def unpack_arrayparameter (m : InterDeps) (ap : ArrayParamInfo) (values : PyVal) :
    Except MeasError ResultsDict :=
  match ap.setpoints with
  | none => .error (.missingSetpoints ap.full_name)
  | some sps =>
    match m.findByName ap.full_name with
    | none => .error (.unknownParameter ap.full_name)
    | some main => do
      let spd ← unpack_setpoints_from_parameter m ap.full_name sps
        ap.setpoint_full_names (ap.full_name ++ "_setpoint")
      .ok (dictMerge [(main, values)] spd)

/-- The per-component loop of `DataSaver._unpack_multiparameter`. -/
def unpackMultiGo (m : InterDeps) (mp : MultiParamInfo) (spss : List (List PyVal))
    (data : List PyVal) :
    List (List Nat) → Nat → ResultsDict → Except MeasError ResultsDict
  | [], _, acc => .ok acc
  | shape :: rest, i, acc => do
    let name ← expectIdx (mp.names.get? i)
    match m.findByName name with
    | none => .error (.unknownParameter name)
    | some ps => do
      let d ← expectIdx (data.get? i)
      let acc0 := dictUpdate acc ps d
      let acc1 ←
        if shape = ([] : List Nat) then pure acc0
        else do
          let fn ← expectIdx (mp.full_names.get? i)
          let spn ← expectIdx (mp.setpoint_full_names.get? i)
          let sps_i ← expectIdx (spss.get? i)
          let spd ← unpack_setpoints_from_parameter m mp.full_name sps_i spn
            (fn ++ "_setpoint")
          pure (dictMerge acc0 spd)
      unpackMultiGo m mp spss data rest (i + 1) acc1

/-- `DataSaver._unpack_multiparameter`: reject a bundle without setpoints,
then unpack each component (and, for non-scalar components, its setpoint
axes). -/
def unpack_multiparameter (m : InterDeps) (mp : MultiParamInfo) (data : List PyVal) :
    Except MeasError ResultsDict :=
  match mp.setpoints with
  | none => .error (.missingSetpoints mp.full_name)
  | some spss => unpackMultiGo m mp spss data mp.shapes 0 []

/-- One partial result unpacked, dispatching on the parameter kind as the
first loop of `add_result` does. -/
def unpackOne (m : InterDeps) : PartialResult → Except MeasError ResultsDict
  | .plain n v => unpackPartialResult m n v
  | .arrayP ap v => unpack_arrayparameter m ap v
  | .multiP mp d => unpack_multiparameter m mp d

/-- The first loop of `add_result`: unpack every partial result and merge
the flat maps into one results dict (`results_dict.update(...)`). -/
def buildResultsDict (m : InterDeps) : List PartialResult → Except MeasError ResultsDict :=
  go []
where
  go (acc : ResultsDict) : List PartialResult → Except MeasError ResultsDict
    | [] => .ok acc
    | pr :: rest => do
      let sub ← unpackOne m pr
      go (dictMerge acc sub) rest

/-- Closure check over one edge list: every present key must have all its
required related names present ("any value for that name" satisfies the
requirement). -/
def checkClosure (present : List String) (mk : String → MeasError) :
    List (ParamSpecBase × List ParamSpecBase) → Except MeasError Unit
  | [] => .ok ()
  | (p, reqs) :: rest =>
    if present.contains p.name then
      if reqs.all (fun r => present.contains r.name) then
        checkClosure present mk rest
      else .error (mk p.name)
    else checkClosure present mk rest

/-- Modelled from the spec: `InterDependencies_.validate_subset`
(qcodes.dataset.dependencies, not part of src) — fails with a dependency
error if a present dependent lacks one of its setpoints, and with an
inference error analogously for basis relations; only name presence is
checked. -/
def InterDeps.validate_subset (m : InterDeps) (present : List String) :
    Except MeasError Unit := do
  checkClosure present MeasError.dependencyViolation m.dependencies
  checkClosure present MeasError.inferenceViolation m.inferences

/-- The names present in a results dict. -/
def namesOf (rd : ResultsDict) : List String := rd.map (fun e => e.1.name)

/-- `DataSaver._validate_result_deps`: dependency/inference failures
surface as the single "missing required parameters" ValueError. -/
def validate_result_deps (m : InterDeps) (rd : ResultsDict) : Except MeasError Unit :=
  match m.validate_subset (namesOf rd) with
  | .ok _ => .ok ()
  | .error _ => .error .missingParams

/-- The inner setpoint loop of `_validate_result_shapes`: a setpoint shape
must be `()` or the dependent's shape. -/
def checkSetpointShapes (rd : ResultsDict) (top : ParamSpecBase) (reqShape : List Nat) :
    List ParamSpecBase → Except MeasError Unit
  | [] => .ok ()
  | sp :: rest => do
    let v ← getVal rd sp
    if pyShape v = [] ∨ pyShape v = reqShape then
      checkSetpointShapes rd top reqShape rest
    else .error (.shapeMismatch top.name reqShape sp.name (pyShape v))

/-- The outer loop of `_validate_result_shapes` over the dependency
entries whose dependent is present in the results dict. -/
def validateShapesGo (rd : ResultsDict) :
    List (ParamSpecBase × List ParamSpecBase) → Except MeasError Unit
  | [] => .ok ()
  | (top, sps) :: rest =>
    if hasKey rd top then do
      let tv ← getVal rd top
      checkSetpointShapes rd top (pyShape tv) sps
      validateShapesGo rd rest
    else validateShapesGo rd rest

/-- `DataSaver._validate_result_shapes`. -/
def validate_result_shapes (m : InterDeps) (rd : ResultsDict) : Except MeasError Unit :=
  validateShapesGo rd m.dependencies

/-- Membership in the allowed basic types for storage class `numeric`:
int/float/numpy scalar types and `np.ndarray`. -/
def isBasicNumeric : PyVal → Bool
  | .num _ => true
  | .nd _ => true
  | _ => false

def isStrVal : PyVal → Bool
  | .str _ => true
  | _ => false

/-- Membership in the allowed basic types for storage class `array`:
ndarray, tuple or list. -/
def isArrayLike : PyVal → Bool
  | .nd _ => true
  | .seq _ => true
  | _ => false

def scalIsNum : Scal → Bool
  | .num _ => true
  | _ => false

/-- A numpy array has a numeric dtype exactly when all its elements are
numbers (a mixed or string sequence is coerced to a string dtype by
`np.array`). -/
def dtypeNumeric (a : NDArr) : Bool := a.data.all scalIsNum

/-- `array_type_validator(..., 'numeric')`: dtype check for an ndarray,
per-element isinstance check for a tuple/list. -/
def arrayTypeNumeric (pname : String) (v : PyVal) : Except MeasError Unit :=
  match v with
  | .nd a => if dtypeNumeric a then .ok () else .error (.typeError pname "numeric" v)
  | .seq vs => if vs.all isBasicNumeric then .ok () else .error (.typeError pname "numeric" v)
  | w => if isBasicNumeric w then .ok () else .error (.typeError pname "numeric" v)

/-- The per-entry body of `_validate_result_types`. -/
def validateOneType (p : ParamSpecBase) (v : PyVal) : Except MeasError Unit :=
  if p.paramtype = "numeric" then
    if pyShape v = [] then
      if isBasicNumeric v then .ok () else .error (.typeError p.name "numeric" v)
    else
      arrayTypeNumeric p.name (.nd (npArray v))
  else if p.paramtype = "text" then
    match v with
    | .seq vs => if vs.all isStrVal then .ok () else .error (.typeError p.name "text" v)
    | w => if isStrVal w then .ok () else .error (.typeError p.name "text" w)
  else if p.paramtype = "array" then do
    if isArrayLike v then pure () else throw (.typeError p.name "array" v)
    arrayTypeNumeric p.name v
  else .ok ()

/-- `DataSaver._validate_result_types` over the results dict. -/
def validate_result_types : ResultsDict → Except MeasError Unit
  | [] => .ok ()
  | (p, v) :: rest => do
    validateOneType p v
    validate_result_types rest

/-- The `reshaper` of `_finalize_res_dict_array`: a 0-d numpy array is
reshaped to a 1-element array, a tuple/list becomes an array, anything
else (including a plain scalar) passes through unchanged. -/
def reshaper : PyVal → PyVal
  | .nd a => if a.shape = [] then .nd ⟨[1], a.data⟩ else .nd a
  | .seq vs => .nd (npArray (.seq vs))
  | v => v

/-- `DataSaver._finalize_res_dict_array`: one record for the whole group,
every value passed through `reshaper`. -/
def finalize_res_dict_array (rd : ResultsDict) (all_params : List ParamSpecBase) :
    Except MeasError (List Record) := do
  let r ← all_params.mapM (fun p => do
    let v ← getVal rd p
    pure (p.name, reshaper v))
  pure [r]

/-- `array_to_scalar` of `_finalize_res_dict_numeric`: `float(val)` on a
numpy array (which succeeds exactly on single-element numeric arrays),
identity otherwise. -/
def array_to_scalar : PyVal → Except MeasError PyVal
  | .nd a =>
    match a.data with
    | [Scal.num n] => .ok (.num n)
    | _ => .error .floatError
  | v => .ok v

/-- 1-D indexing with an `IndexError` when out of range. -/
def ndIndex (a : NDArr) (i : Nat) : Except MeasError Scal :=
  expectIdx (a.data.get? i)

/-- The `flat_results` dict of `_finalize_res_dict_numeric`. -/
abbrev FlatDict := List (ParamSpecBase × NDArr)

def flatUpdate (d : FlatDict) (k : ParamSpecBase) (v : NDArr) : FlatDict :=
  if d.any (fun e => e.1 == k) then
    d.map (fun e => if e.1 == k then (k, v) else e)
  else d ++ [(k, v)]

def flatGet (d : FlatDict) (k : ParamSpecBase) : Except MeasError NDArr :=
  match d.find? (fun e => e.1 == k) with
  | some e => .ok e.2
  | none => .error (.keyError k.name)

/-- Set union `inffs ∪ deps ∪ {top}` canonicalized as a list keeping first
occurrences. -/
def dedupFirst : List ParamSpecBase → List ParamSpecBase
  | [] => []
  | p :: rest => p :: (dedupFirst rest).filter (fun q => q != p)

/-- The setpoint loop of the non-scalar branch of
`_finalize_res_dict_numeric`: a scalar setpoint is repeated to length `N`
(its own value), an array setpoint is raveled. -/
def depsLoop (rd : ResultsDict) (N : Nat) :
    FlatDict → List ParamSpecBase → Except MeasError FlatDict
  | f, [] => .ok f
  | f, dep :: rest => do
    let v ← getVal rd dep
    let arr := if pyShape v = [] then npRepeat v N else (npArray v).ravel
    depsLoop rd N (flatUpdate f dep arr) rest

/-- The inferred-parameter loop of the non-scalar branch.  The source
reads `np.repeat(result_dict[dep], N)` here: for a scalar-shaped inferred
value it repeats the value of `dep` — the loop variable leaked from the
preceding setpoint loop (the last setpoint), not the inferred variable's
own value — and raises `NameError` when there was no setpoint at all. -/
def inffLoop (rd : ResultsDict) (N : Nat) (lastDep : Option ParamSpecBase) :
    FlatDict → List ParamSpecBase → Except MeasError FlatDict
  | f, [] => .ok f
  | f, inff :: rest => do
    let v ← getVal rd inff
    let arr ←
      if pyShape v = [] then
        match lastDep with
        | none => throw MeasError.nameError
        | some d => do
          let dv ← getVal rd d
          pure (npRepeat dv N)
      else pure ((npArray v).ravel)
    inffLoop rd N lastDep (flatUpdate f inff arr) rest

/-- `DataSaver._finalize_res_dict_numeric`. -/
def finalize_res_dict_numeric (rd : ResultsDict) (top : ParamSpecBase)
    (inffs deps : List ParamSpecBase) : Except MeasError (List Record) := do
  let tval ← getVal rd top
  let all_params := dedupFirst (inffs ++ deps ++ [top])
  if pyShape tval = [] then do
    let r ← all_params.mapM (fun p => do
      let v ← getVal rd p
      let w ← array_to_scalar v
      pure (p.name, w))
    pure [r]
  else do
    let flatTop := (npArray tval).ravel
    let N := flatTop.data.length
    let f0 := flatUpdate [] top flatTop
    let f1 ← depsLoop rd N f0 deps
    let f2 ← inffLoop rd N deps.getLast? f1 inffs
    (List.range N).mapM (fun i =>
      all_params.mapM (fun p => do
        let a ← flatGet f2 p
        let s ← ndIndex a i
        pure (p.name, s.toPy)))

/-- `DataSaver._finalize_res_dict_standalones`: a text standalone whose
value is a tuple/list yields one record per element, everything else one
record with the value unchanged. -/
def finalize_res_dict_standalones (stdln : ResultsDict) : List Record :=
  stdln.flatMap (fun e =>
    if e.1.paramtype = "text" then
      match e.2 with
      | .seq vs => vs.map (fun s => [(e.1.name, s)])
      | v => [[(e.1.name, v)]]
    else [[(e.1.name, e.2)]])

/-- The per-group loop of `_enqueue_results`.  On a failure inside a group
the records of the earlier groups stay appended (Python mutates
`self._results` incrementally). -/
def enqueueGroups (m : InterDeps) (rd : ResultsDict) :
    List (ParamSpecBase × List ParamSpecBase) → List Record →
    List Record × Option MeasError
  | [], acc => (acc, none)
  | (top, _) :: rest, acc =>
    if hasKey rd top then
      let inffs := ((m.inferences.find? (fun e => e.1 == top)).map (·.2)).getD []
      let deps := ((m.dependencies.find? (fun e => e.1 == top)).map (·.2)).getD []
      let all_params := dedupFirst (inffs ++ deps ++ [top])
      let res :=
        if top.paramtype = "array" then finalize_res_dict_array rd all_params
        else if top.paramtype = "numeric" then
          finalize_res_dict_numeric rd top inffs deps
        else
          (fun r => [r]) <$> all_params.mapM (fun p => do
            let v ← getVal rd p
            pure (p.name, v))
      match res with
      | .ok rs => enqueueGroups m rd rest (acc ++ rs)
      | .error e => (acc, some e)
    else enqueueGroups m rd rest acc

/-- `DataSaver._enqueue_results`: dependent groups in graph order, then
the standalone records. -/
def enqueue_results (m : InterDeps) (rd : ResultsDict) (results : List Record) :
    List Record × Option MeasError :=
  match enqueueGroups m rd m.dependencies results with
  | (recs, some e) => (recs, some e)
  | (recs, none) =>
    let stdlnDict := rd.filter (fun e => m.standalones.any (fun q => q == e.1))
    (recs ++ finalize_res_dict_standalones stdlnDict, none)

/-- `DataSaver.add_result` up to the enqueue: unpack, validate
dependencies, shapes and types in that order, then enqueue.  An exception
leaves the buffer as the caller saw it. -/
def add_result_run (m : InterDeps) (partials : List PartialResult)
    (results : List Record) : List Record × Option MeasError :=
  match buildResultsDict m partials with
  | .error e => (results, some e)
  | .ok rd =>
    match validate_result_deps m rd with
    | .error e => (results, some e)
    | .ok _ =>
      match validate_result_shapes m rd with
      | .error e => (results, some e)
      | .ok _ =>
        match validate_result_types rd with
        | .error e => (results, some e)
        | .ok _ => enqueue_results m rd results

/-- The buffered-writer state: the in-memory results buffer and the rows
already persisted by the storage sink. -/
structure WriterState where
  results : List Record
  stored : List Record

/-- `DataSaver.flush_data_to_database`.  `sinkFails` states whether the
sink's `add_results` raises on this call; the exception is caught and
logged, so the function is total and a failing flush leaves the state
untouched. -/
def flush_data_to_database (sinkFails : Bool) (st : WriterState) : WriterState :=
  if st.results.isEmpty then st
  else if sinkFails then st
  else { results := [], stored := st.stored ++ st.results }

/-- `add_result`'s buffering effect seen from the writer: enqueued records
are appended to the buffer. -/
def submit_records (st : WriterState) (recs : List Record) : WriterState :=
  { st with results := st.results ++ recs }

/-- Python-dict update on an edge list. -/
def dictUpdatePS (d : List (ParamSpecBase × List ParamSpecBase))
    (k : ParamSpecBase) (v : List ParamSpecBase) :
    List (ParamSpecBase × List ParamSpecBase) :=
  if d.any (fun e => e.1 == k) then
    d.map (fun e => if e.1 == k then (k, v) else e)
  else d ++ [(k, v)]

/-- Modelled from the spec: `InterDependencies_.extend` with a dependencies
argument — every referenced setpoint must already be known, a variable may
not be both dependent and standalone, and the edge is merged in, giving a
new graph value. -/
def InterDeps.extendDeps (m : InterDeps) (p : ParamSpecBase)
    (ds : List ParamSpecBase) : Except MeasError InterDeps :=
  if ds.all (fun d => (m.findByName d.name).isSome) then
    if m.standalones.any (fun q => q == p) then .error .schemaError
    else .ok { m with dependencies := dictUpdatePS m.dependencies p ds }
  else .error .schemaError

/-- Modelled from the spec: `InterDependencies_.extend` with an inferences
argument. -/
def InterDeps.extendInfs (m : InterDeps) (p : ParamSpecBase)
    (bs : List ParamSpecBase) : Except MeasError InterDeps :=
  if bs.all (fun b => (m.findByName b.name).isSome) then
    .ok { m with inferences := dictUpdatePS m.inferences p bs }
  else .error .schemaError

/-- Modelled from the spec: `InterDependencies_.extend` with a standalones
argument — a dependent may not also be standalone; adding an already
present standalone is a no-op. -/
def InterDeps.extendStandalones (m : InterDeps) (p : ParamSpecBase) :
    Except MeasError InterDeps :=
  if m.dependencies.any (fun e => e.1 == p) then .error .schemaError
  else if m.standalones.any (fun q => q == p) then .ok m
  else .ok { m with standalones := m.standalones ++ [p] }

/-- Setpoint lookup of `_paramspecbase_from_strings`. -/
def lookupSetpoint (m : InterDeps) (s : String) : Except MeasError ParamSpecBase :=
  match m.findByName s with
  | some q => .ok q
  | none => .error (.unknownSetpoint s)

/-- Basis lookup of `_paramspecbase_from_strings`. -/
def lookupBasis (m : InterDeps) (s : String) : Except MeasError ParamSpecBase :=
  match m.findByName s with
  | some q => .ok q
  | none => .error (.unknownBasis s)

/-- The tail of `Measurement._register_parameter`: extend the graph with
the new variable as a dependent, a derived variable, or a standalone. -/
def registerExtend (m : InterDeps) (paramspec : ParamSpecBase)
    (depends_on inf_from : List ParamSpecBase) : Except MeasError InterDeps :=
  match (if depends_on.isEmpty then .ok m else m.extendDeps paramspec depends_on :
      Except MeasError InterDeps) with
  | .error e => .error e
  | .ok m1 =>
    match (if inf_from.isEmpty then .ok m1 else m1.extendInfs paramspec inf_from :
        Except MeasError InterDeps) with
    | .error e => .error e
    | .ok m2 =>
      if depends_on.isEmpty ∧ inf_from.isEmpty then m2.extendStandalones paramspec
      else .ok m2

/-- `_paramspecbase_from_strings` followed by the graph extension. -/
def registerResolve (m : InterDeps) (paramspec : ParamSpecBase)
    (setpoints basis : List String) : Except MeasError InterDeps :=
  match setpoints.mapM (lookupSetpoint m) with
  | .error e => .error e
  | .ok depends_on =>
    match basis.mapM (lookupBasis m) with
    | .error e => .error e
    | .ok inf_from => registerExtend m paramspec depends_on inf_from

/-- `Measurement._register_parameter`: look up any existing variable with
the name, reject a conflicting re-registration, resolve setpoint and basis
names (which must already be registered), then extend the graph — as a
dependent, a derived variable, or a standalone. -/
def register_parameter (m : InterDeps) (name : String) (label : String)
    (unitStr : String) (setpoints : List String) (basis : List String)
    (paramtype : String) : Except MeasError InterDeps :=
  let paramspec : ParamSpecBase := ⟨name, paramtype, label, unitStr⟩
  match m.findByName name with
  | some p =>
    if p = paramspec then registerResolve m paramspec setpoints basis
    else .error (.alreadyRegistered name)
  | none => registerResolve m paramspec setpoints basis

/-- The graph invariant that the name is the variable's identity: two known
variables with the same name are the same variable. -/
def namesConsistentL (l : List ParamSpecBase) : Bool :=
  l.all (fun p => l.all (fun q => p.name != q.name || p == q))

def InterDeps.namesConsistent (m : InterDeps) : Bool :=
  namesConsistentL m.allSpecs

/-- Every setpoint of every dependent that is present in the results dict
is itself present — guaranteed by dependency validation, which runs before
shape validation. -/
def spPresentB (m : InterDeps) (rd : ResultsDict) : Bool :=
  m.dependencies.all (fun e => !(hasKey rd e.1) || e.2.all (fun sp => hasKey rd sp))

/-- Whether a fallible computation succeeded. -/
def exceptOk {ε α : Type} : Except ε α → Bool
  | .ok _ => true
  | .error _ => false

theorem exBind_ok {ε α β : Type} (x : α) (f : α → Except ε β) :
    (Except.ok x >>= f) = f x := rfl

theorem exBind_error {ε α β : Type} (e : ε) (f : α → Except ε β) :
    ((Except.error e : Except ε α) >>= f) = .error e := rfl

theorem exMap_ok {ε α β : Type} (f : α → β) (x : α) :
    (f <$> (Except.ok x : Except ε α)) = .ok (f x) := rfl

theorem exMap_error {ε α β : Type} (f : α → β) (e : ε) :
    (f <$> (Except.error e : Except ε α)) = .error e := rfl

theorem exPure_eq_ok {ε α : Type} (x : α) : (pure x : Except ε α) = .ok x := rfl

/-- Claim C1: the non-scalar numeric finalization is claimed to broadcast
every scalar-shaped inferred-from (basis) value by repeating that
variable's own value.  The code instead repeats the value of the leaked
loop variable of the preceding setpoint loop: with dependent d = [1, 2],
setpoint s = 10 and basis b = 20, the emitted records carry b = 10 (the
setpoint's value) rather than b = 20, and with no setpoint at all the
scalar-basis branch raises `NameError` on the unbound variable. -/
theorem C1_numeric_finalize_repeats_setpoint_for_basis :
    finalize_res_dict_numeric
      [(⟨"d", "numeric", "", ""⟩, .seq [.num 1, .num 2]),
       (⟨"s", "numeric", "", ""⟩, .num 10),
       (⟨"b", "numeric", "", ""⟩, .num 20)]
      ⟨"d", "numeric", "", ""⟩ [⟨"b", "numeric", "", ""⟩] [⟨"s", "numeric", "", ""⟩]
    = .ok [[("b", .num 10), ("s", .num 10), ("d", .num 1)],
           [("b", .num 10), ("s", .num 10), ("d", .num 2)]]
    ∧ finalize_res_dict_numeric
      [(⟨"d", "numeric", "", ""⟩, .seq [.num 1, .num 2]),
       (⟨"b", "numeric", "", ""⟩, .num 20)]
      ⟨"d", "numeric", "", ""⟩ [⟨"b", "numeric", "", ""⟩] []
    = .error .nameError
    ∧ PyVal.num 10 ≠ PyVal.num 20 := by
  refine ⟨rfl, rfl, ?_⟩
  intro h
  injection h with h
  exact absurd h (by decide)

/-- Claim C9: both array unpackers fail with the missing-setpoints error
when the producer's setpoint coordinate sequences are absent, whatever the
graph holds — in particular before the main payload could be mapped (the
error wins even when the main parameter is not registered at all). -/
theorem C9_missing_setpoints_checked_first (m : InterDeps) (fn : String)
    (spfn : Option (List String)) (v : PyVal) (mpfn : String)
    (names fnames : List String) (shapes : List (List Nat))
    (spfnl : List (Option (List String))) (data : List PyVal) :
    unpack_arrayparameter m ⟨fn, none, spfn⟩ v = .error (.missingSetpoints fn)
    ∧ unpack_multiparameter m ⟨mpfn, names, fnames, shapes, none, spfnl⟩ data
      = .error (.missingSetpoints mpfn) :=
  ⟨rfl, rfl⟩

/-- Claim C2: a failing flush leaves the buffer exactly as it was (the
sink exception is caught, nothing raises); a subsequent successful flush
after more submissions stores the original buffer plus the new records, in
order and exactly once, and clears the buffer; a successful flush of a
non-empty buffer clears the buffer. -/
theorem C2_flush_failure_preserves_buffer (st : WriterState) (extra : List Record)
    (h : st.results ≠ []) :
    flush_data_to_database true st = st
    ∧ (flush_data_to_database false
        (submit_records (flush_data_to_database true st) extra)).stored
      = st.stored ++ st.results ++ extra
    ∧ (flush_data_to_database false
        (submit_records (flush_data_to_database true st) extra)).results = []
    ∧ (flush_data_to_database false st).results = [] := by
  have hne : st.results.isEmpty = false := by
    simp [List.isEmpty_iff, h]
  have hne2 : (st.results ++ extra).isEmpty = false := by
    simp [List.isEmpty_iff, h]
  have hflush : flush_data_to_database true st = st := by
    unfold flush_data_to_database
    split <;> simp
  refine ⟨hflush, ?_, ?_, ?_⟩ <;>
    simp [hflush, flush_data_to_database, submit_records, hne, hne2,
      List.append_assoc]

/-- Witness for C2 at a concrete one-record buffer. -/
theorem C2_flush_failure_preserves_buffer_witness :
    (WriterState.mk [[("d", PyVal.num 1)]] []).results ≠ []
    ∧ (flush_data_to_database true ⟨[[("d", PyVal.num 1)]], []⟩
        = ⟨[[("d", PyVal.num 1)]], []⟩
      ∧ (flush_data_to_database false
          (submit_records (flush_data_to_database true ⟨[[("d", PyVal.num 1)]], []⟩)
            [[("d", PyVal.num 2)]])).stored
        = [] ++ [[("d", PyVal.num 1)]] ++ [[("d", PyVal.num 2)]]
      ∧ (flush_data_to_database false
          (submit_records (flush_data_to_database true ⟨[[("d", PyVal.num 1)]], []⟩)
            [[("d", PyVal.num 2)]])).results = []
      ∧ (flush_data_to_database false ⟨[[("d", PyVal.num 1)]], []⟩).results = []) :=
  ⟨by simp,
   C2_flush_failure_preserves_buffer ⟨[[("d", PyVal.num 1)]], []⟩
     [[("d", PyVal.num 2)]] (by simp)⟩

/-- Claim C7 counterexample: in an array-typed group, a plain scalar value
(here the numeric setpoint s = 7) is NOT reshaped to a 1-element array by
finalization — it passes through unchanged, contradicting the claim that
every scalar value is reshaped. -/
theorem C7_plain_scalar_not_reshaped :
    finalize_res_dict_array
      [(⟨"d", "array", "", ""⟩, .nd ⟨[2], [.num 1, .num 2]⟩),
       (⟨"s", "numeric", "", ""⟩, .num 7)]
      [⟨"d", "array", "", ""⟩, ⟨"s", "numeric", "", ""⟩]
    = .ok [[("d", .nd ⟨[2], [.num 1, .num 2]⟩), ("s", .num 7)]]
    ∧ PyVal.num 7 ≠ PyVal.nd ⟨[1], [.num 7]⟩ := by
  refine ⟨rfl, ?_⟩
  intro h
  cases h

/-- Claim C5: for a numeric-typed variable, a string value fails type
validation with an error naming the variable; a single-element numpy array
passes type validation, and numeric finalization emits a record holding
the unwrapped scalar element, not the array. -/
theorem C5_numeric_string_rejected_single_element_unwrapped
    (nm l u s : String) (x : Int) :
    validate_result_types [(⟨nm, "numeric", l, u⟩, .str s)]
      = .error (.typeError nm "numeric" (.str s))
    ∧ validate_result_types [(⟨nm, "numeric", l, u⟩, .nd ⟨[1], [.num x]⟩)] = .ok ()
    ∧ finalize_res_dict_numeric [(⟨nm, "numeric", l, u⟩, .nd ⟨[1], [.num x]⟩)]
        ⟨nm, "numeric", l, u⟩ [] [] = .ok [[(nm, .num x)]]
    ∧ PyVal.num x ≠ PyVal.nd ⟨[1], [.num x]⟩ := by
  refine ⟨rfl, rfl, ?_, by intro h; cases h⟩
  simp [finalize_res_dict_numeric, getVal, dedupFirst, flatUpdate, flatGet,
    depsLoop, inffLoop, npArray, NDArr.ravel, ndIndex, expectIdx,
    List.range_succ, Scal.toPy, List.mapM, List.mapM.loop,
    exBind_ok, exBind_error, exMap_ok, exMap_error, exPure_eq_ok,
    array_to_scalar, pyShape, pyFlatten]

/-- Claim C10: two partial results in one call resolving to the same
registered variable raise no duplicate-target error — the merged flat map
holds exactly the later payload, and the whole of `add_result` behaves as
if only the later partial result had been supplied. -/
theorem C10_same_variable_last_write_wins (m : InterDeps) (name : String)
    (v1 v2 : PyVal) (ps : ParamSpecBase) (st : List Record)
    (h : m.findByName name = some ps) :
    buildResultsDict m [.plain name v1, .plain name v2] = .ok [(ps, v2)]
    ∧ add_result_run m [.plain name v1, .plain name v2] st
      = add_result_run m [.plain name v2] st := by
  have hb2 : buildResultsDict m [.plain name v2] = .ok [(ps, v2)] := by
    simp [buildResultsDict, buildResultsDict.go, unpackOne, unpackPartialResult,
      h, dictMerge, dictUpdate, exBind_ok, exPure_eq_ok]
  have hb : buildResultsDict m [.plain name v1, .plain name v2] = .ok [(ps, v2)] := by
    simp [buildResultsDict, buildResultsDict.go, unpackOne, unpackPartialResult,
      h, dictMerge, dictUpdate, exBind_ok, exPure_eq_ok]
  exact ⟨hb, by rw [add_result_run, add_result_run, hb, hb2]⟩

/-- Witness for C10: a standalone numeric variable submitted twice in one
call; the later value 2 wins. -/
theorem C10_same_variable_last_write_wins_witness :
    buildResultsDict ⟨[], [], [⟨"p", "numeric", "", ""⟩]⟩
      [.plain "p" (.num 1), .plain "p" (.num 2)]
      = .ok [(⟨"p", "numeric", "", ""⟩, .num 2)]
    ∧ add_result_run ⟨[], [], [⟨"p", "numeric", "", ""⟩]⟩
        [.plain "p" (.num 1), .plain "p" (.num 2)] []
      = add_result_run ⟨[], [], [⟨"p", "numeric", "", ""⟩]⟩ [.plain "p" (.num 2)] [] :=
  C10_same_variable_last_write_wins ⟨[], [], [⟨"p", "numeric", "", ""⟩]⟩
    "p" (.num 1) (.num 2) ⟨"p", "numeric", "", ""⟩ [] rfl

/-- Claim C3: whenever dependency, shape or type validation fails on the
flat map built from a call's partial results, `add_result` reports the
error to the caller and leaves the in-memory results buffer unchanged — no
record of the call is enqueued. -/
theorem C3_validation_failure_leaves_buffer_unchanged (m : InterDeps)
    (partials : List PartialResult) (st : List Record) (rd : ResultsDict)
    (hb : buildResultsDict m partials = .ok rd)
    (hfail : exceptOk (validate_result_deps m rd) = false
      ∨ exceptOk (validate_result_shapes m rd) = false
      ∨ exceptOk (validate_result_types rd) = false) :
    (add_result_run m partials st).1 = st
    ∧ (add_result_run m partials st).2.isSome := by
  cases hd : validate_result_deps m rd with
  | error e => simp [add_result_run, hb, hd]
  | ok _ =>
    cases hs : validate_result_shapes m rd with
    | error e => simp [add_result_run, hb, hd, hs]
    | ok _ =>
      cases ht : validate_result_types rd with
      | error e => simp [add_result_run, hb, hd, hs, ht]
      | ok _ =>
        rcases hfail with hf | hf | hf
        · rw [hd] at hf; exact absurd hf (by simp [exceptOk])
        · rw [hs] at hf; exact absurd hf (by simp [exceptOk])
        · rw [ht] at hf; exact absurd hf (by simp [exceptOk])

/-- Witness for C3: a numeric variable given a string fails type
validation; the buffer (pre-seeded with one record) is untouched. -/
theorem C3_validation_failure_leaves_buffer_unchanged_witness :
    buildResultsDict ⟨[], [], [⟨"p", "numeric", "", ""⟩]⟩ [.plain "p" (.str "x")]
      = .ok [(⟨"p", "numeric", "", ""⟩, .str "x")]
    ∧ (exceptOk (validate_result_deps ⟨[], [], [⟨"p", "numeric", "", ""⟩]⟩
          [(⟨"p", "numeric", "", ""⟩, .str "x")]) = false
        ∨ exceptOk (validate_result_shapes ⟨[], [], [⟨"p", "numeric", "", ""⟩]⟩
            [(⟨"p", "numeric", "", ""⟩, .str "x")]) = false
        ∨ exceptOk (validate_result_types
            [(⟨"p", "numeric", "", ""⟩, .str "x")]) = false)
    ∧ (add_result_run ⟨[], [], [⟨"p", "numeric", "", ""⟩]⟩ [.plain "p" (.str "x")]
        [[("q", .num 5)]]).1 = [[("q", .num 5)]]
    ∧ (add_result_run ⟨[], [], [⟨"p", "numeric", "", ""⟩]⟩ [.plain "p" (.str "x")]
        [[("q", .num 5)]]).2.isSome := by
  refine ⟨rfl, Or.inr (Or.inr rfl), ?_⟩
  exact C3_validation_failure_leaves_buffer_unchanged
    ⟨[], [], [⟨"p", "numeric", "", ""⟩]⟩ [.plain "p" (.str "x")]
    [[("q", .num 5)]] [(⟨"p", "numeric", "", ""⟩, .str "x")] rfl
    (Or.inr (Or.inr rfl))

theorem mapM_reshape_ok (rd : ResultsDict) :
    ∀ ps : List ParamSpecBase, (∀ p ∈ ps, ∃ v, getVal rd p = .ok v) →
      ∃ l : Record,
        (ps.mapM (fun p => do
          let v ← getVal rd p
          pure (p.name, reshaper v)) : Except MeasError Record) = .ok l
        ∧ ∀ p v, p ∈ ps → getVal rd p = .ok v → (p.name, reshaper v) ∈ l := by
  intro ps
  induction ps with
  | nil => intro _; exact ⟨[], rfl, by simp⟩
  | cons p ps ih =>
    intro h
    obtain ⟨v0, hv0⟩ := h p (List.mem_cons_self p ps)
    obtain ⟨l, hl, hmem⟩ := ih (fun q hq => h q (List.mem_cons_of_mem p hq))
    refine ⟨(p.name, reshaper v0) :: l, ?_, ?_⟩
    · rw [List.mapM_cons, hl, hv0]
      rfl
    · intro q w hq hw
      rcases List.mem_cons.mp hq with hq' | hq'
      · subst hq'
        rw [hv0] at hw
        injection hw with hw'
        rw [← hw']
        exact List.mem_cons_self _ _
      · exact List.mem_cons_of_mem _ (hmem q w hq' hw)

/-- Claim C7 (amended): for an array-typed group with all group members
present, finalization emits exactly one record; a value that is a 0-d
numpy array is reshaped to a 1-element array, a tuple/list is converted to
an array, and every other value — including a plain scalar — passes
through unchanged. -/
theorem C7_array_finalize_amended (rd : ResultsDict) (ps : List ParamSpecBase)
    (h : ∀ p ∈ ps, ∃ v, getVal rd p = .ok v) :
    (∃ r, finalize_res_dict_array rd ps = .ok [r]
      ∧ ∀ p v, p ∈ ps → getVal rd p = .ok v → (p.name, reshaper v) ∈ r)
    ∧ (∀ a : NDArr, reshaper (.nd a) = if a.shape = [] then .nd ⟨[1], a.data⟩ else .nd a)
    ∧ (∀ vs, reshaper (.seq vs) = .nd (npArray (.seq vs)))
    ∧ (∀ n, reshaper (.num n) = .num n)
    ∧ (∀ s, reshaper (.str s) = .str s) := by
  obtain ⟨l, hl, hmem⟩ := mapM_reshape_ok rd ps h
  refine ⟨⟨l, ?_, hmem⟩, fun a => rfl, fun vs => rfl, fun n => rfl, fun s => rfl⟩
  unfold finalize_res_dict_array
  rw [hl]
  rfl

/-- Witness for the amended C7 at a two-member group: an array dependent,
a 0-d array basis and a plain scalar setpoint. -/
theorem C7_array_finalize_amended_witness :
    (∀ p ∈ [(⟨"d", "array", "", ""⟩ : ParamSpecBase), ⟨"s", "numeric", "", ""⟩,
        ⟨"b", "numeric", "", ""⟩], ∃ v,
      getVal [(⟨"d", "array", "", ""⟩, PyVal.nd ⟨[2], [.num 1, .num 2]⟩),
        (⟨"s", "numeric", "", ""⟩, PyVal.num 7),
        (⟨"b", "numeric", "", ""⟩, PyVal.nd ⟨[], [.num 3]⟩)] p = .ok v)
    ∧ ((∃ r, finalize_res_dict_array
          [(⟨"d", "array", "", ""⟩, PyVal.nd ⟨[2], [.num 1, .num 2]⟩),
           (⟨"s", "numeric", "", ""⟩, PyVal.num 7),
           (⟨"b", "numeric", "", ""⟩, PyVal.nd ⟨[], [.num 3]⟩)]
          [⟨"d", "array", "", ""⟩, ⟨"s", "numeric", "", ""⟩, ⟨"b", "numeric", "", ""⟩]
        = .ok [r]
        ∧ ∀ p v, p ∈ [(⟨"d", "array", "", ""⟩ : ParamSpecBase), ⟨"s", "numeric", "", ""⟩,
              ⟨"b", "numeric", "", ""⟩] →
            getVal [(⟨"d", "array", "", ""⟩, PyVal.nd ⟨[2], [.num 1, .num 2]⟩),
              (⟨"s", "numeric", "", ""⟩, PyVal.num 7),
              (⟨"b", "numeric", "", ""⟩, PyVal.nd ⟨[], [.num 3]⟩)] p = .ok v →
            (p.name, reshaper v) ∈ r)
      ∧ (∀ a : NDArr, reshaper (.nd a) = if a.shape = [] then .nd ⟨[1], a.data⟩ else .nd a)
      ∧ (∀ vs, reshaper (.seq vs) = .nd (npArray (.seq vs)))
      ∧ (∀ n, reshaper (.num n) = .num n)
      ∧ (∀ s, reshaper (.str s) = .str s)) := by
  have h : ∀ p ∈ [(⟨"d", "array", "", ""⟩ : ParamSpecBase), ⟨"s", "numeric", "", ""⟩,
      ⟨"b", "numeric", "", ""⟩], ∃ v,
      getVal [(⟨"d", "array", "", ""⟩, PyVal.nd ⟨[2], [.num 1, .num 2]⟩),
        (⟨"s", "numeric", "", ""⟩, PyVal.num 7),
        (⟨"b", "numeric", "", ""⟩, PyVal.nd ⟨[], [.num 3]⟩)] p = .ok v := by
    intro p hp
    simp only [List.mem_cons, List.not_mem_nil, or_false] at hp
    rcases hp with rfl | rfl | rfl
    · exact ⟨_, rfl⟩
    · exact ⟨_, rfl⟩
    · exact ⟨_, rfl⟩
  exact ⟨h, C7_array_finalize_amended _ _ h⟩

theorem getVal_ok_of_hasKey (rd : ResultsDict) (p : ParamSpecBase)
    (h : hasKey rd p = true) : ∃ v, getVal rd p = .ok v := by
  unfold hasKey at h
  rw [List.any_eq_true] at h
  obtain ⟨e, he, hpe⟩ := h
  have hs : (rd.find? (fun e => e.1 == p)).isSome := by
    rw [List.find?_isSome]
    exact ⟨e, he, hpe⟩
  unfold getVal
  cases hf : rd.find? (fun e => e.1 == p) with
  | some e0 => exact ⟨e0.2, rfl⟩
  | none => rw [hf] at hs; cases hs

theorem hasKey_of_getVal_ok (rd : ResultsDict) (p : ParamSpecBase) (v : PyVal)
    (h : getVal rd p = .ok v) : hasKey rd p = true := by
  unfold getVal at h
  cases hf : rd.find? (fun e => e.1 == p) with
  | none => rw [hf] at h; cases h
  | some e0 =>
    unfold hasKey
    rw [List.any_eq_true]
    have h2 := List.find?_some hf
    exact ⟨e0, List.mem_of_find?_eq_some hf, h2⟩

theorem getVal_error_of_not_hasKey (rd : ResultsDict) (p : ParamSpecBase)
    (h : hasKey rd p = false) : getVal rd p = .error (.keyError p.name) := by
  unfold hasKey at h
  have hf : rd.find? (fun e => e.1 == p) = none := by
    rw [List.find?_eq_none]
    intro x hx
    intro hpx
    rw [List.any_eq_false] at h
    exact absurd hpx (h x hx)
  unfold getVal
  rw [hf]

theorem checkShapes_ok_iff (rd : ResultsDict) (top : ParamSpecBase)
    (reqShape : List Nat) :
    ∀ sps : List ParamSpecBase, (∀ sp ∈ sps, hasKey rd sp = true) →
      (checkSetpointShapes rd top reqShape sps = .ok ()
        ↔ ∀ sp w, sp ∈ sps → getVal rd sp = .ok w →
            (pyShape w = [] ∨ pyShape w = reqShape)) := by
  intro sps
  induction sps with
  | nil => intro _; simp [checkSetpointShapes]
  | cons sp rest ih =>
    intro h
    obtain ⟨v, hv⟩ := getVal_ok_of_hasKey rd sp (h sp (List.mem_cons_self _ _))
    have ihr := ih (fun q hq => h q (List.mem_cons_of_mem _ hq))
    unfold checkSetpointShapes
    rw [hv, exBind_ok]
    by_cases hc : pyShape v = [] ∨ pyShape v = reqShape
    · rw [if_pos hc]
      constructor
      · intro hrest q w hq hw
        rcases List.mem_cons.mp hq with hq' | hq'
        · subst hq'; rw [hv] at hw; injection hw with hw'; rw [← hw']; exact hc
        · exact (ihr.mp hrest) q w hq' hw
      · intro hall
        exact ihr.mpr (fun q w hq hw => hall q w (List.mem_cons_of_mem _ hq) hw)
    · rw [if_neg hc]
      constructor
      · intro hfalse; cases hfalse
      · intro hall
        exact absurd (hall sp v (List.mem_cons_self _ _) hv) hc

theorem checkShapes_err (rd : ResultsDict) (top : ParamSpecBase)
    (reqShape : List Nat) :
    ∀ (sps : List ParamSpecBase) (e : MeasError),
      (∀ sp ∈ sps, hasKey rd sp = true) →
      checkSetpointShapes rd top reqShape sps = .error e →
      ∃ sp w, sp ∈ sps ∧ getVal rd sp = .ok w
        ∧ ¬(pyShape w = [] ∨ pyShape w = reqShape)
        ∧ e = .shapeMismatch top.name reqShape sp.name (pyShape w) := by
  intro sps
  induction sps with
  | nil => intro e _ he; cases he
  | cons sp rest ih =>
    intro e h he
    obtain ⟨v, hv⟩ := getVal_ok_of_hasKey rd sp (h sp (List.mem_cons_self _ _))
    unfold checkSetpointShapes at he
    rw [hv, exBind_ok] at he
    by_cases hc : pyShape v = [] ∨ pyShape v = reqShape
    · rw [if_pos hc] at he
      obtain ⟨q, w, hq, hw, hnc, heq⟩ :=
        ih e (fun q hq => h q (List.mem_cons_of_mem _ hq)) he
      exact ⟨q, w, List.mem_cons_of_mem _ hq, hw, hnc, heq⟩
    · rw [if_neg hc] at he
      injection he with he'
      exact ⟨sp, v, List.mem_cons_self _ _, hv, hc, he'.symm⟩

theorem shapesGo_ok_iff (rd : ResultsDict) :
    ∀ dl : List (ParamSpecBase × List ParamSpecBase),
      (∀ e ∈ dl, hasKey rd e.1 = true → ∀ sp ∈ e.2, hasKey rd sp = true) →
      (validateShapesGo rd dl = .ok ()
        ↔ ∀ top sps sp v w, (top, sps) ∈ dl → sp ∈ sps →
            getVal rd top = .ok v → getVal rd sp = .ok w →
            (pyShape w = [] ∨ pyShape w = pyShape v)) := by
  intro dl
  induction dl with
  | nil => intro _; simp [validateShapesGo]
  | cons ent rest ih =>
    intro h
    obtain ⟨top, sps⟩ := ent
    have ihr := ih (fun q hq => h q (List.mem_cons_of_mem _ hq))
    unfold validateShapesGo
    by_cases hk : hasKey rd top = true
    case neg =>
      have hk' : hasKey rd top = false := by
        revert hk; cases hasKey rd top <;> simp
      rw [if_neg hk]
      rw [ihr]
      constructor
      · intro hall top' sps' sp v w hmem hsp hv hw
        rcases List.mem_cons.mp hmem with hq' | hq'
        · injection hq' with h1 h2
          subst h1; subst h2
          rw [getVal_error_of_not_hasKey rd top' hk'] at hv
          cases hv
        · exact hall top' sps' sp v w hq' hsp hv hw
      · intro hall top' sps' sp v w hmem hsp hv hw
        exact hall top' sps' sp v w (List.mem_cons_of_mem _ hmem) hsp hv hw
    case pos =>
      rw [if_pos hk]
      obtain ⟨v, hv⟩ := getVal_ok_of_hasKey rd top hk
      have hpres : ∀ sp ∈ sps, hasKey rd sp = true :=
        h (top, sps) (List.mem_cons_self _ _) hk
      rw [hv, exBind_ok]
      cases hcs : checkSetpointShapes rd top (pyShape v) sps with
      | error e =>
        rw [exBind_error]
        obtain ⟨sp0, w0, hsp0, hw0, hnc0, _⟩ :=
          checkShapes_err rd top (pyShape v) sps e hpres hcs
        constructor
        · intro hfalse; cases hfalse
        · intro hall
          exact absurd (hall top sps sp0 v w0 (List.mem_cons_self _ _) hsp0 hv hw0) hnc0
      | ok u =>
        cases u
        rw [exBind_ok, ihr]
        have hhead := (checkShapes_ok_iff rd top (pyShape v) sps hpres).mp hcs
        constructor
        · intro hall top' sps' sp v' w hmem hsp hv' hw
          rcases List.mem_cons.mp hmem with hq' | hq'
          · injection hq' with h1 h2
            subst h1; subst h2
            rw [hv] at hv'
            injection hv' with hv''
            rw [← hv'']
            exact hhead sp w hsp hw
          · exact hall top' sps' sp v' w hq' hsp hv' hw
        · intro hall top' sps' sp v' w hmem hsp hv' hw
          exact hall top' sps' sp v' w (List.mem_cons_of_mem _ hmem) hsp hv' hw

theorem shapesGo_err (rd : ResultsDict) :
    ∀ (dl : List (ParamSpecBase × List ParamSpecBase)) (e : MeasError),
      (∀ ent ∈ dl, hasKey rd ent.1 = true → ∀ sp ∈ ent.2, hasKey rd sp = true) →
      validateShapesGo rd dl = .error e →
      ∃ top sps sp v w, (top, sps) ∈ dl ∧ sp ∈ sps
        ∧ getVal rd top = .ok v ∧ getVal rd sp = .ok w
        ∧ ¬(pyShape w = [] ∨ pyShape w = pyShape v)
        ∧ e = .shapeMismatch top.name (pyShape v) sp.name (pyShape w) := by
  intro dl
  induction dl with
  | nil => intro e _ he; cases he
  | cons ent rest ih =>
    intro e h he
    obtain ⟨top, sps⟩ := ent
    unfold validateShapesGo at he
    by_cases hk : hasKey rd top = true
    case neg =>
      rw [if_neg hk] at he
      obtain ⟨t, ss, sp, v, w, hmem, rest'⟩ :=
        ih e (fun q hq => h q (List.mem_cons_of_mem _ hq)) he
      exact ⟨t, ss, sp, v, w, List.mem_cons_of_mem _ hmem, rest'⟩
    case pos =>
      rw [if_pos hk] at he
      obtain ⟨v, hv⟩ := getVal_ok_of_hasKey rd top hk
      have hpres : ∀ sp ∈ sps, hasKey rd sp = true :=
        h (top, sps) (List.mem_cons_self _ _) hk
      rw [hv, exBind_ok] at he
      cases hcs : checkSetpointShapes rd top (pyShape v) sps with
      | error e0 =>
        rw [hcs, exBind_error] at he
        injection he with he'
        obtain ⟨sp0, w0, hsp0, hw0, hnc0, heq0⟩ :=
          checkShapes_err rd top (pyShape v) sps e0 hpres hcs
        exact ⟨top, sps, sp0, v, w0, List.mem_cons_self _ _, hsp0, hv, hw0, hnc0,
          he' ▸ heq0⟩
      | ok u =>
        cases u
        rw [hcs, exBind_ok] at he
        obtain ⟨t, ss, sp, v', w, hmem, rest'⟩ :=
          ih e (fun q hq => h q (List.mem_cons_of_mem _ hq)) he
        exact ⟨t, ss, sp, v', w, List.mem_cons_of_mem _ hmem, rest'⟩

theorem spPresentB_spec (m : InterDeps) (rd : ResultsDict)
    (h : spPresentB m rd = true) :
    ∀ ent ∈ m.dependencies, hasKey rd ent.1 = true →
      ∀ sp ∈ ent.2, hasKey rd sp = true := by
  intro ent hent hk sp hsp
  unfold spPresentB at h
  rw [List.all_eq_true] at h
  have := h ent hent
  rw [hk] at this
  simp only [Bool.not_true, Bool.false_or] at this
  rw [List.all_eq_true] at this
  exact this sp hsp

/-- Claim C4: shape validation accepts a present dependent / setpoint pair
exactly when the setpoint payload's shape equals the dependent payload's
shape or is the empty scalar shape; on any other combination it fails with
an error carrying both variable names and both shapes. -/
theorem C4_shape_validation_iff (m : InterDeps) (rd : ResultsDict)
    (hp : spPresentB m rd = true) :
    (validate_result_shapes m rd = .ok ()
      ↔ ∀ top sps sp v w, (top, sps) ∈ m.dependencies → sp ∈ sps →
          getVal rd top = .ok v → getVal rd sp = .ok w →
          (pyShape w = [] ∨ pyShape w = pyShape v))
    ∧ (∀ e, validate_result_shapes m rd = .error e →
        ∃ top sps sp v w, (top, sps) ∈ m.dependencies ∧ sp ∈ sps
          ∧ getVal rd top = .ok v ∧ getVal rd sp = .ok w
          ∧ ¬(pyShape w = [] ∨ pyShape w = pyShape v)
          ∧ e = .shapeMismatch top.name (pyShape v) sp.name (pyShape w)) := by
  have hpres := spPresentB_spec m rd hp
  exact ⟨shapesGo_ok_iff rd m.dependencies hpres,
    fun e => shapesGo_err rd m.dependencies e hpres⟩

/-- Witness for C4: dependent d of shape (5,) with setpoint s of shape
(3,); validation rejects the pair with the error naming both variables
and both shapes. -/
theorem C4_shape_validation_iff_witness :
    spPresentB ⟨[(⟨"d", "numeric", "", ""⟩, [⟨"s", "numeric", "", ""⟩])], [], []⟩
      [(⟨"d", "numeric", "", ""⟩,
          PyVal.nd ⟨[5], [.num 1, .num 2, .num 3, .num 4, .num 5]⟩),
       (⟨"s", "numeric", "", ""⟩, PyVal.nd ⟨[3], [.num 1, .num 2, .num 3]⟩)] = true
    ∧ ¬(validate_result_shapes
        ⟨[(⟨"d", "numeric", "", ""⟩, [⟨"s", "numeric", "", ""⟩])], [], []⟩
        [(⟨"d", "numeric", "", ""⟩,
            PyVal.nd ⟨[5], [.num 1, .num 2, .num 3, .num 4, .num 5]⟩),
         (⟨"s", "numeric", "", ""⟩, PyVal.nd ⟨[3], [.num 1, .num 2, .num 3]⟩)]
      = .ok ())
    ∧ (∃ top sps sp v w,
        (top, sps) ∈ ([(⟨"d", "numeric", "", ""⟩, [⟨"s", "numeric", "", ""⟩])] :
            List (ParamSpecBase × List ParamSpecBase))
        ∧ sp ∈ sps
        ∧ getVal [(⟨"d", "numeric", "", ""⟩,
              PyVal.nd ⟨[5], [.num 1, .num 2, .num 3, .num 4, .num 5]⟩),
            (⟨"s", "numeric", "", ""⟩, PyVal.nd ⟨[3], [.num 1, .num 2, .num 3]⟩)]
            top = .ok v
        ∧ getVal [(⟨"d", "numeric", "", ""⟩,
              PyVal.nd ⟨[5], [.num 1, .num 2, .num 3, .num 4, .num 5]⟩),
            (⟨"s", "numeric", "", ""⟩, PyVal.nd ⟨[3], [.num 1, .num 2, .num 3]⟩)]
            sp = .ok w
        ∧ ¬(pyShape w = [] ∨ pyShape w = pyShape v)
        ∧ MeasError.shapeMismatch "d" [5] "s" [3]
          = .shapeMismatch top.name (pyShape v) sp.name (pyShape w)) := by
  have hp : spPresentB ⟨[(⟨"d", "numeric", "", ""⟩, [⟨"s", "numeric", "", ""⟩])], [], []⟩
      [(⟨"d", "numeric", "", ""⟩,
          PyVal.nd ⟨[5], [.num 1, .num 2, .num 3, .num 4, .num 5]⟩),
       (⟨"s", "numeric", "", ""⟩, PyVal.nd ⟨[3], [.num 1, .num 2, .num 3]⟩)] = true := rfl
  have hc := C4_shape_validation_iff
    ⟨[(⟨"d", "numeric", "", ""⟩, [⟨"s", "numeric", "", ""⟩])], [], []⟩
    [(⟨"d", "numeric", "", ""⟩,
        PyVal.nd ⟨[5], [.num 1, .num 2, .num 3, .num 4, .num 5]⟩),
     (⟨"s", "numeric", "", ""⟩, PyVal.nd ⟨[3], [.num 1, .num 2, .num 3]⟩)] hp
  have herr : validate_result_shapes
      ⟨[(⟨"d", "numeric", "", ""⟩, [⟨"s", "numeric", "", ""⟩])], [], []⟩
      [(⟨"d", "numeric", "", ""⟩,
          PyVal.nd ⟨[5], [.num 1, .num 2, .num 3, .num 4, .num 5]⟩),
       (⟨"s", "numeric", "", ""⟩, PyVal.nd ⟨[3], [.num 1, .num 2, .num 3]⟩)]
      = .error (.shapeMismatch "d" [5] "s" [3]) := rfl
  refine ⟨hp, ?_, hc.2 _ herr⟩
  rw [herr]
  intro hcontr
  cases hcontr

theorem collect_snd_eq_reduced (m : InterDeps) (pn : String)
    (spn : Option (List String)) (fb : String) :
    ∀ (axes : List PyVal) (i : Nat) (pairs : List (ParamSpecBase × NDArr)),
      collectSetpointAxes m pn spn fb i axes = .ok pairs →
      pairs.map (·.2) = axes.map (fun v => reduceTo1D (npArray v)) := by
  intro axes
  induction axes with
  | nil =>
    intro i pairs h
    unfold collectSetpointAxes at h
    injection h with h'
    rw [← h']
    rfl
  | cons sps rest ih =>
    intro i pairs h
    unfold collectSetpointAxes at h
    cases hn : spAxisName spn fb i with
    | error e => rw [hn, exBind_error] at h; cases h
    | ok n =>
      rw [hn, exBind_ok] at h
      cases hf : m.findByName n with
      | none => rw [hf] at h; cases h
      | some sp =>
        rw [hf] at h
        dsimp only at h
        cases hc : collectSetpointAxes m pn spn fb (i + 1) rest with
        | error e => rw [hc, exBind_error] at h; cases h
        | ok tail =>
          rw [hc, exBind_ok] at h
          injection h with h'
          rw [← h']
          simp only [List.map_cons]
          rw [ih (i + 1) tail hc]

/-- Claim C6: for an array producer's setpoint axes, each supplied
coordinate array is reduced to its innermost 1-D slice (index 0 along all
outer dimensions), and each setpoint variable is mapped to its grid of the
N-dimensional outer-product meshgrid of the reduced axes. -/
theorem C6_setpoint_unpack_meshgrid (m : InterDeps) (pn : String)
    (axes : List PyVal) (spn : Option (List String)) (fb : String)
    (pairs : List (ParamSpecBase × NDArr))
    (h : collectSetpointAxes m pn spn fb 0 axes = .ok pairs) :
    pairs.map (·.2) = axes.map (fun v => reduceTo1D (npArray v))
    ∧ unpack_setpoints_from_parameter m pn axes spn fb
      = .ok (((pairs.map (·.1)).zip
          ((meshgrid (axes.map (fun v => reduceTo1D (npArray v)))).map PyVal.nd)).foldl
          (fun acc e => dictUpdate acc e.1 e.2) []) := by
  have hsnd := collect_snd_eq_reduced m pn spn fb axes 0 pairs h
  refine ⟨hsnd, ?_⟩
  unfold unpack_setpoints_from_parameter
  rw [h, exBind_ok, hsnd]

/-- Witness for C6: a (2,3) dependent with two unnamed axes — the first
supplied as a 2-D coordinate array and reduced to its first row — yields
the two (2,3) grids of `meshgrid(axis0, axis1, indexing='ij')`. -/
theorem C6_setpoint_unpack_meshgrid_witness :
    collectSetpointAxes
      ⟨[], [], [⟨"d_setpoint_0", "numeric", "", ""⟩, ⟨"d_setpoint_1", "numeric", "", ""⟩]⟩
      "d" none "d_setpoint" 0
      [.seq [.seq [.num 10, .num 20], .seq [.num 30, .num 40]],
       .seq [.num 1, .num 2, .num 3]]
      = .ok [(⟨"d_setpoint_0", "numeric", "", ""⟩, ⟨[2], [.num 10, .num 20]⟩),
             (⟨"d_setpoint_1", "numeric", "", ""⟩, ⟨[3], [.num 1, .num 2, .num 3]⟩)]
    ∧ ((([(⟨"d_setpoint_0", "numeric", "", ""⟩, ⟨[2], [.num 10, .num 20]⟩),
        (⟨"d_setpoint_1", "numeric", "", ""⟩, ⟨[3], [.num 1, .num 2, .num 3]⟩)] :
          List (ParamSpecBase × NDArr)).map
          (·.2))
        = [PyVal.seq [.seq [.num 10, .num 20], .seq [.num 30, .num 40]],
           PyVal.seq [.num 1, .num 2, .num 3]].map (fun v => reduceTo1D (npArray v))
      ∧ unpack_setpoints_from_parameter
          ⟨[], [], [⟨"d_setpoint_0", "numeric", "", ""⟩, ⟨"d_setpoint_1", "numeric", "", ""⟩]⟩
          "d"
          [.seq [.seq [.num 10, .num 20], .seq [.num 30, .num 40]],
           .seq [.num 1, .num 2, .num 3]] none "d_setpoint"
        = .ok (((([(⟨"d_setpoint_0", "numeric", "", ""⟩, ⟨[2], [.num 10, .num 20]⟩),
              (⟨"d_setpoint_1", "numeric", "", ""⟩, ⟨[3], [.num 1, .num 2, .num 3]⟩)] :
                List (ParamSpecBase × NDArr)).map
                (·.1)).zip
            ((meshgrid
              ([PyVal.seq [.seq [.num 10, .num 20], .seq [.num 30, .num 40]],
                PyVal.seq [.num 1, .num 2, .num 3]].map
                (fun v => reduceTo1D (npArray v)))).map PyVal.nd)).foldl
            (fun acc e => dictUpdate acc e.1 e.2) []))
    ∧ unpack_setpoints_from_parameter
        ⟨[], [], [⟨"d_setpoint_0", "numeric", "", ""⟩, ⟨"d_setpoint_1", "numeric", "", ""⟩]⟩
        "d"
        [.seq [.seq [.num 10, .num 20], .seq [.num 30, .num 40]],
         .seq [.num 1, .num 2, .num 3]] none "d_setpoint"
      = .ok [(⟨"d_setpoint_0", "numeric", "", ""⟩,
                .nd ⟨[2, 3], [.num 10, .num 10, .num 10, .num 20, .num 20, .num 20]⟩),
             (⟨"d_setpoint_1", "numeric", "", ""⟩,
                .nd ⟨[2, 3], [.num 1, .num 2, .num 3, .num 1, .num 2, .num 3]⟩)] :=
  ⟨rfl,
   C6_setpoint_unpack_meshgrid
     ⟨[], [], [⟨"d_setpoint_0", "numeric", "", ""⟩, ⟨"d_setpoint_1", "numeric", "", ""⟩]⟩
     "d"
     [.seq [.seq [.num 10, .num 20], .seq [.num 30, .num 40]],
      .seq [.num 1, .num 2, .num 3]]
     none "d_setpoint"
     [(⟨"d_setpoint_0", "numeric", "", ""⟩, ⟨[2], [.num 10, .num 20]⟩),
      (⟨"d_setpoint_1", "numeric", "", ""⟩, ⟨[3], [.num 1, .num 2, .num 3]⟩)]
     rfl,
   rfl⟩

/-- Names-are-identities invariant, as a proposition. -/
def NCP (l : List ParamSpecBase) : Prop :=
  ∀ p ∈ l, ∀ q ∈ l, p.name = q.name → p = q

theorem ncp_of_bool (l : List ParamSpecBase) (h : namesConsistentL l = true) :
    NCP l := by
  intro p hp q hq hname
  unfold namesConsistentL at h
  rw [List.all_eq_true] at h
  have h1 := h p hp
  rw [List.all_eq_true] at h1
  have h2 := h1 q hq
  rcases Bool.or_eq_true _ _ |>.mp h2 with h3 | h3
  · rw [bne_iff_ne] at h3; exact absurd hname h3
  · exact beq_iff_eq.mp h3

theorem findSpec_mem (l : List ParamSpecBase) (n : String) (p : ParamSpecBase)
    (h : findSpec l n = some p) : p ∈ l ∧ p.name = n := by
  unfold findSpec at h
  have h1 := List.find?_some h
  exact ⟨List.mem_of_find?_eq_some h, beq_iff_eq.mp h1⟩

theorem findSpec_none (l : List ParamSpecBase) (n : String)
    (h : findSpec l n = none) : ∀ p ∈ l, p.name ≠ n := by
  unfold findSpec at h
  rw [List.find?_eq_none] at h
  intro p hp
  have := h p hp
  simpa using this

theorem findSpec_isSome_of_mem (l : List ParamSpecBase) (n : String)
    (p : ParamSpecBase) (hp : p ∈ l) (hn : p.name = n) :
    (findSpec l n).isSome = true := by
  unfold findSpec
  rw [List.find?_isSome]
  exact ⟨p, hp, by rw [hn]; exact beq_self_eq_true n⟩

theorem findSpec_of_mem_ncp (l : List ParamSpecBase) (n : String)
    (p : ParamSpecBase) (hc : NCP l) (hp : p ∈ l) (hn : p.name = n) :
    findSpec l n = some p := by
  cases hf : findSpec l n with
  | none => exact absurd hn (findSpec_none l n hf p hp)
  | some q =>
    obtain ⟨hq, hqn⟩ := findSpec_mem l n q hf
    rw [hc q hq p hp (by rw [hqn, hn])]

theorem mem_specsOfEdges (l : List (ParamSpecBase × List ParamSpecBase))
    (x : ParamSpecBase) :
    x ∈ specsOfEdges l ↔ ∃ e ∈ l, x = e.1 ∨ x ∈ e.2 := by
  unfold specsOfEdges
  rw [List.mem_flatMap]
  constructor
  · rintro ⟨e, he, hx⟩
    rcases List.mem_cons.mp hx with h1 | h1
    · exact ⟨e, he, Or.inl h1⟩
    · exact ⟨e, he, Or.inr h1⟩
  · rintro ⟨e, he, h1 | h1⟩
    · exact ⟨e, he, by rw [h1]; exact List.mem_cons_self _ _⟩
    · exact ⟨e, he, List.mem_cons_of_mem _ h1⟩

theorem mem_dictUpdatePS (d : List (ParamSpecBase × List ParamSpecBase))
    (k : ParamSpecBase) (v : List ParamSpecBase)
    (x : ParamSpecBase × List ParamSpecBase) (hx : x ∈ dictUpdatePS d k v) :
    x ∈ d ∨ x = (k, v) := by
  unfold dictUpdatePS at hx
  by_cases h : d.any (fun e => e.1 == k) = true
  · rw [if_pos h] at hx
    obtain ⟨e, he, hfe⟩ := List.mem_map.mp hx
    by_cases hek : (e.1 == k) = true
    · rw [if_pos hek] at hfe; exact Or.inr hfe.symm
    · rw [if_neg hek] at hfe; exact Or.inl (hfe ▸ he)
  · rw [if_neg h] at hx
    rcases List.mem_append.mp hx with h1 | h1
    · exact Or.inl h1
    · exact Or.inr (List.mem_singleton.mp h1)

theorem self_mem_dictUpdatePS (d : List (ParamSpecBase × List ParamSpecBase))
    (k : ParamSpecBase) (v : List ParamSpecBase) :
    (k, v) ∈ dictUpdatePS d k v := by
  unfold dictUpdatePS
  by_cases h : d.any (fun e => e.1 == k) = true
  · rw [if_pos h]
    obtain ⟨e, he, hek⟩ := List.any_eq_true.mp h
    refine List.mem_map.mpr ⟨e, he, ?_⟩
    rw [if_pos hek]
  · rw [if_neg h]
    exact List.mem_append_right _ (List.mem_singleton.mpr rfl)

theorem dictUpdatePS_idem (d : List (ParamSpecBase × List ParamSpecBase))
    (k : ParamSpecBase) (v : List ParamSpecBase) :
    dictUpdatePS (dictUpdatePS d k v) k v = dictUpdatePS d k v := by
  have hmem := self_mem_dictUpdatePS d k v
  have hany : (dictUpdatePS d k v).any (fun e => e.1 == k) = true :=
    List.any_eq_true.mpr ⟨(k, v), hmem, beq_self_eq_true k⟩
  conv_lhs => rw [dictUpdatePS]
  rw [if_pos hany]
  unfold dictUpdatePS
  by_cases h : d.any (fun e => e.1 == k) = true
  · rw [if_pos h, List.map_map]
    refine List.map_congr_left ?_
    intro e _
    by_cases hek : (e.1 == k) = true
    · simp only [Function.comp_apply, if_pos hek, beq_self_eq_true, if_pos]
    · simp only [Function.comp_apply, if_neg hek]
  · rw [if_neg h, List.map_append]
    have hfalse : d.any (fun e => e.1 == k) = false := by
      revert h; cases d.any (fun e => e.1 == k) <;> simp
    have h1 : (d.map (fun e => if e.1 == k then (k, v) else e)) = d.map id :=
      List.map_congr_left (fun e he => by
        have h2 := List.any_eq_false.mp hfalse e he
        rw [if_neg h2]
        rfl)
    rw [h1, List.map_id]
    simp [beq_self_eq_true]

theorem extendDeps_ok_elim (m : InterDeps) (p : ParamSpecBase)
    (ds : List ParamSpecBase) (m2 : InterDeps)
    (h : m.extendDeps p ds = .ok m2) :
    m2 = { m with dependencies := dictUpdatePS m.dependencies p ds }
    ∧ ds.all (fun d => (m.findByName d.name).isSome) = true
    ∧ m.standalones.any (fun q => q == p) = false := by
  unfold InterDeps.extendDeps at h
  by_cases h1 : ds.all (fun d => (m.findByName d.name).isSome) = true
  · rw [if_pos h1] at h
    by_cases h2 : m.standalones.any (fun q => q == p) = true
    · rw [if_pos h2] at h; cases h
    · rw [if_neg h2] at h
      injection h with h'
      exact ⟨h'.symm, h1, by revert h2; cases m.standalones.any (fun q => q == p) <;> simp⟩
  · rw [if_neg h1] at h; cases h

theorem extendInfs_ok_elim (m : InterDeps) (p : ParamSpecBase)
    (bs : List ParamSpecBase) (m2 : InterDeps)
    (h : m.extendInfs p bs = .ok m2) :
    m2 = { m with inferences := dictUpdatePS m.inferences p bs }
    ∧ bs.all (fun b => (m.findByName b.name).isSome) = true := by
  unfold InterDeps.extendInfs at h
  by_cases h1 : bs.all (fun b => (m.findByName b.name).isSome) = true
  · rw [if_pos h1] at h
    injection h with h'
    exact ⟨h'.symm, h1⟩
  · rw [if_neg h1] at h; cases h

theorem extendStandalones_ok_elim (m : InterDeps) (p : ParamSpecBase)
    (m2 : InterDeps) (h : m.extendStandalones p = .ok m2) :
    m.dependencies.any (fun e => e.1 == p) = false
    ∧ ((m.standalones.any (fun q => q == p) = true ∧ m2 = m)
      ∨ (m.standalones.any (fun q => q == p) = false
        ∧ m2 = { m with standalones := m.standalones ++ [p] })) := by
  unfold InterDeps.extendStandalones at h
  by_cases h1 : m.dependencies.any (fun e => e.1 == p) = true
  · rw [if_pos h1] at h; cases h
  · rw [if_neg h1] at h
    have h1' : m.dependencies.any (fun e => e.1 == p) = false := by
      revert h1; cases m.dependencies.any (fun e => e.1 == p) <;> simp
    by_cases h2 : m.standalones.any (fun q => q == p) = true
    · rw [if_pos h2] at h
      injection h with h'
      exact ⟨h1', Or.inl ⟨h2, h'.symm⟩⟩
    · rw [if_neg h2] at h
      injection h with h'
      refine ⟨h1', Or.inr ⟨?_, h'.symm⟩⟩
      revert h2; cases m.standalones.any (fun q => q == p) <;> simp

theorem mem_allSpecs_of_deps (m : InterDeps) (x : ParamSpecBase)
    (h : x ∈ specsOfEdges m.dependencies) : x ∈ m.allSpecs :=
  List.mem_append_left _ (List.mem_append_left _ h)

theorem mem_allSpecs_of_infs (m : InterDeps) (x : ParamSpecBase)
    (h : x ∈ specsOfEdges m.inferences) : x ∈ m.allSpecs :=
  List.mem_append_left _ (List.mem_append_right _ h)

theorem mem_allSpecs_of_standalones (m : InterDeps) (x : ParamSpecBase)
    (h : x ∈ m.standalones) : x ∈ m.allSpecs :=
  List.mem_append_right _ h

theorem allSpecs_mem_cases (m : InterDeps) (x : ParamSpecBase)
    (h : x ∈ m.allSpecs) :
    x ∈ specsOfEdges m.dependencies ∨ x ∈ specsOfEdges m.inferences
      ∨ x ∈ m.standalones := by
  unfold InterDeps.allSpecs at h
  rcases List.mem_append.mp h with h1 | h1
  · rcases List.mem_append.mp h1 with h2 | h2
    · exact Or.inl h2
    · exact Or.inr (Or.inl h2)
  · exact Or.inr (Or.inr h1)

theorem mem_allSpecs_build (m : InterDeps) (x : ParamSpecBase)
    (h : x ∈ specsOfEdges m.dependencies ∨ x ∈ specsOfEdges m.inferences
      ∨ x ∈ m.standalones) : x ∈ m.allSpecs := by
  rcases h with h1 | h1 | h1
  · exact mem_allSpecs_of_deps m x h1
  · exact mem_allSpecs_of_infs m x h1
  · exact mem_allSpecs_of_standalones m x h1

theorem specsOfEdges_update_subset (d : List (ParamSpecBase × List ParamSpecBase))
    (k : ParamSpecBase) (v : List ParamSpecBase) (x : ParamSpecBase)
    (h : x ∈ specsOfEdges (dictUpdatePS d k v)) :
    x ∈ specsOfEdges d ∨ x = k ∨ x ∈ v := by
  obtain ⟨e, he, hx⟩ := (mem_specsOfEdges _ x).mp h
  rcases mem_dictUpdatePS d k v e he with h1 | h1
  · exact Or.inl ((mem_specsOfEdges _ x).mpr ⟨e, h1, hx⟩)
  · subst h1
    rcases hx with h2 | h2
    · exact Or.inr (Or.inl h2)
    · exact Or.inr (Or.inr h2)

theorem key_mem_specsOfEdges_update (d : List (ParamSpecBase × List ParamSpecBase))
    (k : ParamSpecBase) (v : List ParamSpecBase) :
    k ∈ specsOfEdges (dictUpdatePS d k v)
    ∧ ∀ q ∈ v, q ∈ specsOfEdges (dictUpdatePS d k v) := by
  have hm := self_mem_dictUpdatePS d k v
  exact ⟨(mem_specsOfEdges _ k).mpr ⟨(k, v), hm, Or.inl rfl⟩,
    fun q hq => (mem_specsOfEdges _ q).mpr ⟨(k, v), hm, Or.inr hq⟩⟩

theorem allSpecs_extendDeps (m : InterDeps) (p : ParamSpecBase)
    (ds : List ParamSpecBase) (m2 : InterDeps) (h : m.extendDeps p ds = .ok m2) :
    (∀ x ∈ m2.allSpecs, x ∈ m.allSpecs ∨ x = p ∨ x ∈ ds)
    ∧ p ∈ m2.allSpecs ∧ (∀ q ∈ ds, q ∈ m2.allSpecs)
    ∧ m2.inferences = m.inferences ∧ m2.standalones = m.standalones
    ∧ m2.dependencies = dictUpdatePS m.dependencies p ds := by
  obtain ⟨hm2, _, _⟩ := extendDeps_ok_elim m p ds m2 h
  subst hm2
  refine ⟨?_, ?_, ?_, rfl, rfl, rfl⟩
  · intro x hx
    rcases allSpecs_mem_cases _ x hx with h1 | h1 | h1
    · rcases specsOfEdges_update_subset m.dependencies p ds x h1 with h2 | h2 | h2
      · exact Or.inl (mem_allSpecs_of_deps m x h2)
      · exact Or.inr (Or.inl h2)
      · exact Or.inr (Or.inr h2)
    · exact Or.inl (mem_allSpecs_of_infs m x h1)
    · exact Or.inl (mem_allSpecs_of_standalones m x h1)
  · exact mem_allSpecs_of_deps _ p (key_mem_specsOfEdges_update m.dependencies p ds).1
  · intro q hq
    exact mem_allSpecs_of_deps _ q
      ((key_mem_specsOfEdges_update m.dependencies p ds).2 q hq)

theorem allSpecs_extendInfs (m : InterDeps) (p : ParamSpecBase)
    (bs : List ParamSpecBase) (m2 : InterDeps) (h : m.extendInfs p bs = .ok m2) :
    (∀ x ∈ m2.allSpecs, x ∈ m.allSpecs ∨ x = p ∨ x ∈ bs)
    ∧ p ∈ m2.allSpecs ∧ (∀ q ∈ bs, q ∈ m2.allSpecs)
    ∧ m2.dependencies = m.dependencies ∧ m2.standalones = m.standalones
    ∧ m2.inferences = dictUpdatePS m.inferences p bs := by
  obtain ⟨hm2, _⟩ := extendInfs_ok_elim m p bs m2 h
  subst hm2
  refine ⟨?_, ?_, ?_, rfl, rfl, rfl⟩
  · intro x hx
    rcases allSpecs_mem_cases _ x hx with h1 | h1 | h1
    · exact Or.inl (mem_allSpecs_of_deps m x h1)
    · rcases specsOfEdges_update_subset m.inferences p bs x h1 with h2 | h2 | h2
      · exact Or.inl (mem_allSpecs_of_infs m x h2)
      · exact Or.inr (Or.inl h2)
      · exact Or.inr (Or.inr h2)
    · exact Or.inl (mem_allSpecs_of_standalones m x h1)
  · exact mem_allSpecs_of_infs _ p (key_mem_specsOfEdges_update m.inferences p bs).1
  · intro q hq
    exact mem_allSpecs_of_infs _ q
      ((key_mem_specsOfEdges_update m.inferences p bs).2 q hq)

theorem allSpecs_extendStandalones (m : InterDeps) (p : ParamSpecBase)
    (m2 : InterDeps) (h : m.extendStandalones p = .ok m2) :
    (∀ x ∈ m2.allSpecs, x ∈ m.allSpecs ∨ x = p)
    ∧ p ∈ m2.allSpecs
    ∧ m2.dependencies = m.dependencies ∧ m2.inferences = m.inferences
    ∧ p ∈ m2.standalones := by
  obtain ⟨_, hcase⟩ := extendStandalones_ok_elim m p m2 h
  rcases hcase with ⟨hany, hm2⟩ | ⟨hany, hm2⟩
  · subst hm2
    obtain ⟨q, hq, hqp⟩ := List.any_eq_true.mp hany
    have hqp' : q = p := beq_iff_eq.mp hqp
    rw [← hqp']
    exact ⟨fun x hx => Or.inl hx, mem_allSpecs_of_standalones _ q hq, rfl, rfl, hq⟩
  · subst hm2
    refine ⟨?_, ?_, rfl, rfl, ?_⟩
    · intro x hx
      rcases allSpecs_mem_cases _ x hx with h1 | h1 | h1
      · exact Or.inl (mem_allSpecs_of_deps m x h1)
      · exact Or.inl (mem_allSpecs_of_infs m x h1)
      · rcases List.mem_append.mp h1 with h2 | h2
        · exact Or.inl (mem_allSpecs_of_standalones m x h2)
        · exact Or.inr (List.mem_singleton.mp h2)
    · exact mem_allSpecs_of_standalones _ p
        (List.mem_append_right _ (List.mem_singleton.mpr rfl))
    · exact List.mem_append_right _ (List.mem_singleton.mpr rfl)

theorem ncp_extend (S l2 : List ParamSpecBase) (p : ParamSpecBase)
    (extra : List ParamSpecBase) (hS : NCP S)
    (hp : (∀ y ∈ S, y.name ≠ p.name) ∨ p ∈ S)
    (hextra : ∀ q ∈ extra, q ∈ S)
    (hsub : ∀ x ∈ l2, x ∈ S ∨ x = p ∨ x ∈ extra) : NCP l2 := by
  have hred : ∀ x ∈ l2, x ∈ S ∨ x = p := by
    intro x hx
    rcases hsub x hx with h1 | h1 | h1
    · exact Or.inl h1
    · exact Or.inr h1
    · exact Or.inl (hextra x h1)
  intro x hx y hy hname
  rcases hred x hx with h1 | h1 <;> rcases hred y hy with h2 | h2
  · exact hS x h1 y h2 hname
  · rcases hp with h3 | h3
    · have hx2 : x.name = p.name := by rw [hname, h2]
      exact absurd hx2 (h3 x h1)
    · have hyS : y ∈ S := by rw [h2]; exact h3
      exact hS x h1 y hyS hname
  · rcases hp with h3 | h3
    · have hy2 : y.name = p.name := by rw [← hname, h1]
      exact absurd hy2 (h3 y h2)
    · have hxS : x ∈ S := by rw [h1]; exact h3
      exact hS x hxS y h2 hname
  · rw [h1, h2]

theorem mapM_ok_nil {α : Type} (f : α → Except MeasError ParamSpecBase) :
    ∀ l : List α, l.mapM f = .ok [] → l = [] := by
  intro l
  cases l with
  | nil => intro _; rfl
  | cons a l =>
    intro h
    rw [List.mapM_cons] at h
    cases hf : f a with
    | error e => rw [hf, exBind_error] at h; cases h
    | ok q =>
      rw [hf, exBind_ok] at h
      cases hrest : l.mapM f with
      | error e => rw [hrest, exBind_error] at h; cases h
      | ok qs =>
        rw [hrest, exBind_ok] at h
        injection h with h'
        cases h'

theorem mapM_congr_ok {α : Type} (f g : α → Except MeasError ParamSpecBase) :
    ∀ (l : List α) (qs : List ParamSpecBase), l.mapM f = .ok qs →
      (∀ s q, s ∈ l → q ∈ qs → f s = .ok q → g s = .ok q) →
      l.mapM g = .ok qs := by
  intro l
  induction l with
  | nil =>
    intro qs h _
    exact h
  | cons a l ih =>
    intro qs h hpt
    rw [List.mapM_cons] at h
    cases hf : f a with
    | error e => rw [hf, exBind_error] at h; cases h
    | ok q =>
      rw [hf, exBind_ok] at h
      cases hrest : l.mapM f with
      | error e => rw [hrest, exBind_error] at h; cases h
      | ok qs' =>
        rw [hrest, exBind_ok] at h
        injection h with h'
        subst h'
        have hga : g a = .ok q :=
          hpt a q (List.mem_cons_self _ _) (List.mem_cons_self _ _) hf
        have hgl : l.mapM g = .ok qs' :=
          ih qs' hrest (fun s q0 hs hq0 hf0 =>
            hpt s q0 (List.mem_cons_of_mem _ hs) (List.mem_cons_of_mem _ hq0) hf0)
        rw [List.mapM_cons, hga, exBind_ok, hgl, exBind_ok]
        rfl

theorem lookupSetpoint_ok_elim (m : InterDeps) (s : String) (q : ParamSpecBase)
    (h : lookupSetpoint m s = .ok q) : q ∈ m.allSpecs ∧ q.name = s := by
  unfold lookupSetpoint at h
  cases hf : m.findByName s with
  | none => rw [hf] at h; cases h
  | some q0 =>
    rw [hf] at h
    injection h with h'
    subst h'
    exact findSpec_mem _ _ _ hf

theorem lookupBasis_ok_elim (m : InterDeps) (s : String) (q : ParamSpecBase)
    (h : lookupBasis m s = .ok q) : q ∈ m.allSpecs ∧ q.name = s := by
  unfold lookupBasis at h
  cases hf : m.findByName s with
  | none => rw [hf] at h; cases h
  | some q0 =>
    rw [hf] at h
    injection h with h'
    subst h'
    exact findSpec_mem _ _ _ hf

theorem mapM_elems_mem {α : Type} (f : α → Except MeasError ParamSpecBase)
    (P : ParamSpecBase → Prop)
    (hf : ∀ s q, f s = .ok q → P q) :
    ∀ (l : List α) (qs : List ParamSpecBase), l.mapM f = .ok qs →
      ∀ q ∈ qs, P q := by
  intro l
  induction l with
  | nil =>
    intro qs h q hq
    injection h with h'
    rw [← h'] at hq
    cases hq
  | cons a l ih =>
    intro qs h q hq
    rw [List.mapM_cons] at h
    cases hfa : f a with
    | error e => rw [hfa, exBind_error] at h; cases h
    | ok q0 =>
      rw [hfa, exBind_ok] at h
      cases hrest : l.mapM f with
      | error e => rw [hrest, exBind_error] at h; cases h
      | ok qs' =>
        rw [hrest, exBind_ok] at h
        injection h with h'
        subst h'
        rcases List.mem_cons.mp hq with h1 | h1
        · subst h1; exact hf a q hfa
        · exact ih qs' hrest q h1

theorem lookupSetpoint_stable (m m' : InterDeps) (hnc' : NCP m'.allSpecs)
    (s : String) (q : ParamSpecBase) (hq : q ∈ m'.allSpecs)
    (h : lookupSetpoint m s = .ok q) : lookupSetpoint m' s = .ok q := by
  obtain ⟨_, hname⟩ := lookupSetpoint_ok_elim m s q h
  unfold lookupSetpoint InterDeps.findByName
  rw [findSpec_of_mem_ncp m'.allSpecs s q hnc' hq hname]

theorem lookupBasis_stable (m m' : InterDeps) (hnc' : NCP m'.allSpecs)
    (s : String) (q : ParamSpecBase) (hq : q ∈ m'.allSpecs)
    (h : lookupBasis m s = .ok q) : lookupBasis m' s = .ok q := by
  obtain ⟨_, hname⟩ := lookupBasis_ok_elim m s q h
  unfold lookupBasis InterDeps.findByName
  rw [findSpec_of_mem_ncp m'.allSpecs s q hnc' hq hname]

theorem extendDeps_noop (m' : InterDeps) (p : ParamSpecBase)
    (ds : List ParamSpecBase) (hknown : ∀ d ∈ ds, d ∈ m'.allSpecs)
    (hstand : m'.standalones.any (fun q => q == p) = false)
    (hidem : dictUpdatePS m'.dependencies p ds = m'.dependencies) :
    m'.extendDeps p ds = .ok m' := by
  unfold InterDeps.extendDeps
  have hk : ds.all (fun d => (m'.findByName d.name).isSome) = true := by
    rw [List.all_eq_true]
    intro d hd
    exact findSpec_isSome_of_mem _ _ d (hknown d hd) rfl
  rw [if_pos hk, if_neg (by rw [hstand]; exact Bool.false_ne_true), hidem]

theorem extendInfs_noop (m' : InterDeps) (p : ParamSpecBase)
    (bs : List ParamSpecBase) (hknown : ∀ b ∈ bs, b ∈ m'.allSpecs)
    (hidem : dictUpdatePS m'.inferences p bs = m'.inferences) :
    m'.extendInfs p bs = .ok m' := by
  unfold InterDeps.extendInfs
  have hk : bs.all (fun b => (m'.findByName b.name).isSome) = true := by
    rw [List.all_eq_true]
    intro b hb
    exact findSpec_isSome_of_mem _ _ b (hknown b hb) rfl
  rw [if_pos hk, hidem]

theorem extendStandalones_noop (m' : InterDeps) (p : ParamSpecBase)
    (hdep : m'.dependencies.any (fun e => e.1 == p) = false)
    (hmem : p ∈ m'.standalones) :
    m'.extendStandalones p = .ok m' := by
  unfold InterDeps.extendStandalones
  have hany : (m'.standalones.any fun q => q == p) = true := by
    rw [List.any_eq_true]
    exact ⟨p, hmem, beq_self_eq_true p⟩
  rw [if_neg (by rw [hdep]; exact Bool.false_ne_true), if_pos hany]

theorem registerResolve_idem (m : InterDeps) (paramspec : ParamSpecBase)
    (sps bs : List String) (m' : InterDeps)
    (hnc : NCP m.allSpecs)
    (hfresh : (∀ y ∈ m.allSpecs, y.name ≠ paramspec.name) ∨ paramspec ∈ m.allSpecs)
    (h : registerResolve m paramspec sps bs = .ok m') :
    paramspec ∈ m'.allSpecs ∧ NCP m'.allSpecs
    ∧ registerResolve m' paramspec sps bs = .ok m' := by
  unfold registerResolve at h
  cases hd : sps.mapM (lookupSetpoint m) with
  | error e => rw [hd] at h; cases h
  | ok depends_on =>
  rw [hd] at h
  dsimp only at h
  cases hb : bs.mapM (lookupBasis m) with
  | error e => rw [hb] at h; dsimp only at h; cases h
  | ok inf_from =>
  rw [hb] at h
  dsimp only at h
  have hdsm : ∀ q ∈ depends_on, q ∈ m.allSpecs :=
    mapM_elems_mem (lookupSetpoint m) (fun q => q ∈ m.allSpecs)
      (fun s q hf => (lookupSetpoint_ok_elim m s q hf).1) sps depends_on hd
  have hbsm : ∀ q ∈ inf_from, q ∈ m.allSpecs :=
    mapM_elems_mem (lookupBasis m) (fun q => q ∈ m.allSpecs)
      (fun s q hf => (lookupBasis_ok_elim m s q hf).1) bs inf_from hb
  unfold registerExtend at h
  by_cases heD : depends_on.isEmpty = true
  case pos =>
    have hdnil : depends_on = [] := List.isEmpty_iff.mp heD
    subst hdnil
    have hsnil : sps = [] := mapM_ok_nil _ sps hd
    subst hsnil
    rw [if_pos heD] at h
    dsimp only at h
    by_cases heI : inf_from.isEmpty = true
    case pos =>
      have hbnil : inf_from = [] := List.isEmpty_iff.mp heI
      subst hbnil
      have hbsnil : bs = [] := mapM_ok_nil _ bs hb
      subst hbsnil
      rw [if_pos heI] at h
      dsimp only at h
      rw [if_pos ⟨heD, heI⟩] at h
      obtain ⟨hsub, hpmem, hdeq, hieq, hstmem⟩ :=
        allSpecs_extendStandalones m paramspec m' h
      obtain ⟨hdepany, _⟩ := extendStandalones_ok_elim m paramspec m' h
      have hnc' : NCP m'.allSpecs := by
        refine ncp_extend m.allSpecs m'.allSpecs paramspec [] hnc hfresh
          (by intro q hq; cases hq) ?_
        intro x hx
        rcases hsub x hx with h1 | h1
        · exact Or.inl h1
        · exact Or.inr (Or.inl h1)
      refine ⟨hpmem, hnc', ?_⟩
      have hrun : registerExtend m' paramspec [] [] = .ok m' := by
        have hT : ([] : List ParamSpecBase).isEmpty = true := List.isEmpty_nil
        unfold registerExtend
        rw [if_pos hT]
        dsimp only
        rw [if_pos hT]
        dsimp only
        rw [if_pos ⟨hT, hT⟩]
        exact extendStandalones_noop m' paramspec (by rw [hdeq]; exact hdepany) hstmem
      exact hrun
    case neg =>
      rw [if_neg heI] at h
      cases hI : m.extendInfs paramspec inf_from with
      | error e => rw [hI] at h; dsimp only at h; cases h
      | ok m2 =>
        rw [hI] at h
        dsimp only at h
        rw [if_neg (fun hc => heI hc.2)] at h
        injection h with h'
        subst h'
        obtain ⟨hsubI, hpmemI, hbsmemI, hdeqI, hseqI, hinfI⟩ :=
          allSpecs_extendInfs m paramspec inf_from m2 hI
        have hnc' : NCP m2.allSpecs := by
          refine ncp_extend m.allSpecs m2.allSpecs paramspec inf_from hnc hfresh hbsm ?_
          intro x hx
          exact hsubI x hx
        refine ⟨hpmemI, hnc', ?_⟩
        have hb' : bs.mapM (lookupBasis m2) = .ok inf_from :=
          mapM_congr_ok _ _ bs inf_from hb
            (fun s q _ hq hf => lookupBasis_stable m m2 hnc' s q (hbsmemI q hq) hf)
        have hrun : registerExtend m2 paramspec [] inf_from = .ok m2 := by
          have hT : ([] : List ParamSpecBase).isEmpty = true := List.isEmpty_nil
          unfold registerExtend
          rw [if_pos hT]
          dsimp only
          rw [if_neg heI]
          have hnoop : m2.extendInfs paramspec inf_from = .ok m2 := by
            refine extendInfs_noop m2 paramspec inf_from hbsmemI ?_
            rw [hinfI]
            exact dictUpdatePS_idem m.inferences paramspec inf_from
          rw [hnoop]
          dsimp only
          rw [if_neg (fun hc => heI hc.2)]
        unfold registerResolve
        rw [hb']
        exact hrun
  case neg =>
    rw [if_neg heD] at h
    cases hD : m.extendDeps paramspec depends_on with
    | error e => rw [hD] at h; dsimp only at h; cases h
    | ok m1 =>
    rw [hD] at h
    dsimp only at h
    obtain ⟨hsubD, hpmemD, hdsmemD, hieqD, hseqD, hdepsD⟩ :=
      allSpecs_extendDeps m paramspec depends_on m1 hD
    obtain ⟨_, hknownD, hstandD⟩ := extendDeps_ok_elim m paramspec depends_on m1 hD
    by_cases heI : inf_from.isEmpty = true
    case pos =>
      have hbnil : inf_from = [] := List.isEmpty_iff.mp heI
      subst hbnil
      have hbsnil : bs = [] := mapM_ok_nil _ bs hb
      subst hbsnil
      rw [if_pos heI] at h
      dsimp only at h
      rw [if_neg (fun hc => heD hc.1)] at h
      injection h with h'
      subst h'
      have hnc' : NCP m1.allSpecs := by
        refine ncp_extend m.allSpecs m1.allSpecs paramspec depends_on hnc hfresh hdsm ?_
        intro x hx
        exact hsubD x hx
      refine ⟨hpmemD, hnc', ?_⟩
      have hd' : sps.mapM (lookupSetpoint m1) = .ok depends_on :=
        mapM_congr_ok _ _ sps depends_on hd
          (fun s q _ hq hf => lookupSetpoint_stable m m1 hnc' s q (hdsmemD q hq) hf)
      have hrun : registerExtend m1 paramspec depends_on [] = .ok m1 := by
        unfold registerExtend
        rw [if_neg heD]
        have hnoop : m1.extendDeps paramspec depends_on = .ok m1 := by
          refine extendDeps_noop m1 paramspec depends_on hdsmemD ?_ ?_
          · rw [hseqD]; exact hstandD
          · rw [hdepsD]
            exact dictUpdatePS_idem m.dependencies paramspec depends_on
        rw [hnoop]
        dsimp only
        rw [if_pos (List.isEmpty_nil : ([] : List ParamSpecBase).isEmpty = true)]
        dsimp only
        rw [if_neg (fun hc => heD hc.1)]
      unfold registerResolve
      rw [hd']
      exact hrun
    case neg =>
      rw [if_neg heI] at h
      cases hI : m1.extendInfs paramspec inf_from with
      | error e => rw [hI] at h; dsimp only at h; cases h
      | ok m2 =>
      rw [hI] at h
      dsimp only at h
      rw [if_neg (fun hc => heD hc.1)] at h
      injection h with h'
      subst h'
      obtain ⟨hsubI, hpmemI, hbsmemI, hdeqI, hseqI, hinfI⟩ :=
        allSpecs_extendInfs m1 paramspec inf_from m2 hI
      have hdsmem2 : ∀ q ∈ depends_on, q ∈ m2.allSpecs := by
        intro q hq
        refine mem_allSpecs_of_deps m2 q ?_
        rw [hdeqI, hdepsD]
        exact (key_mem_specsOfEdges_update m.dependencies paramspec depends_on).2 q hq
      have hnc' : NCP m2.allSpecs := by
        refine ncp_extend m.allSpecs m2.allSpecs paramspec (depends_on ++ inf_from)
          hnc hfresh ?_ ?_
        · intro q hq
          rcases List.mem_append.mp hq with h1 | h1
          · exact hdsm q h1
          · exact hbsm q h1
        · intro x hx
          rcases hsubI x hx with h1 | h1 | h1
          · rcases hsubD x h1 with h2 | h2 | h2
            · exact Or.inl h2
            · exact Or.inr (Or.inl h2)
            · exact Or.inr (Or.inr (List.mem_append_left _ h2))
          · exact Or.inr (Or.inl h1)
          · exact Or.inr (Or.inr (List.mem_append_right _ h1))
      refine ⟨hpmemI, hnc', ?_⟩
      have hd' : sps.mapM (lookupSetpoint m2) = .ok depends_on :=
        mapM_congr_ok _ _ sps depends_on hd
          (fun s q _ hq hf => lookupSetpoint_stable m m2 hnc' s q (hdsmem2 q hq) hf)
      have hb'' : bs.mapM (lookupBasis m2) = .ok inf_from := by
        refine mapM_congr_ok _ _ bs inf_from hb ?_
        intro s q _ hq hf
        refine lookupBasis_stable m m2 hnc' s q ?_ hf
        refine mem_allSpecs_of_infs m2 q ?_
        rw [hinfI]
        exact (key_mem_specsOfEdges_update m1.inferences paramspec inf_from).2 q hq
      have hrun : registerExtend m2 paramspec depends_on inf_from = .ok m2 := by
        unfold registerExtend
        rw [if_neg heD]
        have hnoopD : m2.extendDeps paramspec depends_on = .ok m2 := by
          refine extendDeps_noop m2 paramspec depends_on hdsmem2 ?_ ?_
          · rw [hseqI, hseqD]; exact hstandD
          · rw [hdeqI, hdepsD]
            exact dictUpdatePS_idem m.dependencies paramspec depends_on
        rw [hnoopD]
        dsimp only
        rw [if_neg heI]
        have hnoopI : m2.extendInfs paramspec inf_from = .ok m2 := by
          refine extendInfs_noop m2 paramspec inf_from ?_ ?_
          · intro q hq
            refine mem_allSpecs_of_infs m2 q ?_
            rw [hinfI]
            exact (key_mem_specsOfEdges_update m1.inferences paramspec inf_from).2 q hq
          · rw [hinfI]
            exact dictUpdatePS_idem m1.inferences paramspec inf_from
        rw [hnoopI]
        dsimp only
        rw [if_neg (fun hc => heD hc.1)]
      unfold registerResolve
      rw [hd']
      dsimp only
      rw [hb'']
      exact hrun

/-- Claim C8: on a graph whose names identify its variables, re-registering
a structurally identical variable (same name, storage class, label, unit,
with the same setpoint/basis arguments) succeeds silently and returns the
very same graph — in particular the name still has its single entry; while
registering a variable that differs in any attribute under an existing
name fails with the already-registered error. -/
theorem C8_register_idempotent_and_conflict :
    (∀ (m m' : InterDeps) (name lb un t : String) (sps bs : List String),
      m.namesConsistent = true →
      register_parameter m name lb un sps bs t = .ok m' →
      register_parameter m' name lb un sps bs t = .ok m')
    ∧ (∀ (m : InterDeps) (name t lb un t' lb' un' : String) (sps bs : List String),
        m.findByName name = some ⟨name, t, lb, un⟩ →
        (⟨name, t, lb, un⟩ : ParamSpecBase) ≠ ⟨name, t', lb', un'⟩ →
        register_parameter m name lb' un' sps bs t'
          = .error (.alreadyRegistered name)) := by
  constructor
  · intro m m' name lb un t sps bs hcons h
    have hnc : NCP m.allSpecs := ncp_of_bool _ hcons
    unfold register_parameter at h ⊢
    cases hex : m.findByName name with
    | some p =>
      rw [hex] at h
      dsimp only at h
      by_cases hpe : p = (⟨name, t, lb, un⟩ : ParamSpecBase)
      · rw [if_pos hpe] at h
        have hfresh : (∀ y ∈ m.allSpecs,
              y.name ≠ (⟨name, t, lb, un⟩ : ParamSpecBase).name)
            ∨ (⟨name, t, lb, un⟩ : ParamSpecBase) ∈ m.allSpecs :=
          Or.inr (hpe ▸ (findSpec_mem _ _ p hex).1)
        obtain ⟨hpm', hnc', hres'⟩ :=
          registerResolve_idem m ⟨name, t, lb, un⟩ sps bs m' hnc hfresh h
        have hex' : m'.findByName name = some ⟨name, t, lb, un⟩ :=
          findSpec_of_mem_ncp m'.allSpecs name _ hnc' hpm' rfl
        rw [hex']
        dsimp only
        rw [if_pos (rfl : (⟨name, t, lb, un⟩ : ParamSpecBase) = ⟨name, t, lb, un⟩)]
        exact hres'
      · rw [if_neg hpe] at h
        cases h
    | none =>
      rw [hex] at h
      dsimp only at h
      have hfresh : (∀ y ∈ m.allSpecs,
            y.name ≠ (⟨name, t, lb, un⟩ : ParamSpecBase).name)
          ∨ (⟨name, t, lb, un⟩ : ParamSpecBase) ∈ m.allSpecs :=
        Or.inl (findSpec_none _ _ hex)
      obtain ⟨hpm', hnc', hres'⟩ :=
        registerResolve_idem m ⟨name, t, lb, un⟩ sps bs m' hnc hfresh h
      have hex' : m'.findByName name = some ⟨name, t, lb, un⟩ :=
        findSpec_of_mem_ncp m'.allSpecs name _ hnc' hpm' rfl
      rw [hex']
      dsimp only
      rw [if_pos (rfl : (⟨name, t, lb, un⟩ : ParamSpecBase) = ⟨name, t, lb, un⟩)]
      exact hres'
  · intro m name t lb un t' lb' un' sps bs h1 hne
    unfold register_parameter
    rw [h1]
    dsimp only
    rw [if_neg hne]

/-- Witness for C8: register s, then d depending on s; re-registering d
identically returns the same graph, re-registering d with a different
label fails. -/
theorem C8_register_idempotent_and_conflict_witness :
    (InterDeps.mk [] [] [⟨"s", "numeric", "", ""⟩]).namesConsistent = true
    ∧ register_parameter ⟨[], [], [⟨"s", "numeric", "", ""⟩]⟩ "d" "" "" ["s"] []
        "numeric"
      = .ok ⟨[(⟨"d", "numeric", "", ""⟩, [⟨"s", "numeric", "", ""⟩])], [],
          [⟨"s", "numeric", "", ""⟩]⟩
    ∧ register_parameter
        ⟨[(⟨"d", "numeric", "", ""⟩, [⟨"s", "numeric", "", ""⟩])], [],
          [⟨"s", "numeric", "", ""⟩]⟩ "d" "" "" ["s"] [] "numeric"
      = .ok ⟨[(⟨"d", "numeric", "", ""⟩, [⟨"s", "numeric", "", ""⟩])], [],
          [⟨"s", "numeric", "", ""⟩]⟩
    ∧ (InterDeps.mk [(⟨"d", "numeric", "", ""⟩, [⟨"s", "numeric", "", ""⟩])] []
          [⟨"s", "numeric", "", ""⟩]).findByName "d" = some ⟨"d", "numeric", "", ""⟩
    ∧ (⟨"d", "numeric", "", ""⟩ : ParamSpecBase) ≠ ⟨"d", "numeric", "x", ""⟩
    ∧ register_parameter
        ⟨[(⟨"d", "numeric", "", ""⟩, [⟨"s", "numeric", "", ""⟩])], [],
          [⟨"s", "numeric", "", ""⟩]⟩ "d" "x" "" ["s"] [] "numeric"
      = .error (.alreadyRegistered "d") :=
  ⟨by decide, rfl,
   C8_register_idempotent_and_conflict.1
     ⟨[], [], [⟨"s", "numeric", "", ""⟩]⟩
     ⟨[(⟨"d", "numeric", "", ""⟩, [⟨"s", "numeric", "", ""⟩])], [],
       [⟨"s", "numeric", "", ""⟩]⟩
     "d" "" "" "numeric" ["s"] [] (by decide) rfl,
   rfl, by decide,
   C8_register_idempotent_and_conflict.2
     ⟨[(⟨"d", "numeric", "", ""⟩, [⟨"s", "numeric", "", ""⟩])], [],
       [⟨"s", "numeric", "", ""⟩]⟩
     "d" "numeric" "" "" "numeric" "x" "" ["s"] [] rfl (by decide)⟩

end QMeas
